import Mathlib

/-!
Verification of the EPGDatasetGenerator dataset-construction core.

The Python sources are shallowly embedded as executable Lean definitions:

* Python floats are modelled as exact rationals; every float literal of the
  source (0.7, 3.2, 0.65, ...) appears as the corresponding rational.  The
  sign structure of sums of non-negative floats (all that the sampling code
  inspects) is preserved exactly by this model.
* Python datetimes are modelled by the structure DTime holding the civil
  fields; datetime.fromisoformat applied to the stored start_time string is
  modelled by storing the DTime directly, and datetime comparison is the
  lexicographic order on the fields (all times share the fixed UTC+9 zone).
* random.choices with weights is modelled by an arbitrary index-choosing
  function together with the fact, stated as ValidPick, that an index whose
  current weight is zero is never returned while the total weight is
  positive; random.sample is modelled likewise by an arbitrary function with
  the properties guaranteed by its contract.
* Loops that consume a list while scanning it are written with an explicit
  fuel argument equal to an upper bound on the number of iterations, so that
  every definition is executable by kernel reduction.
-/

set_option maxHeartbeats 4000000
set_option maxRecDepth 16000
set_option allowUnsafeReducibility true

attribute [semireducible] Rat.add Rat.mul Rat.sub Rat.div Rat.neg Rat.inv Rat.ofScientific

/-- Civil datetime at second resolution (all datetimes of the pipeline carry
the fixed UTC+9 zone, so the zone is not represented). -/
structure DTime where
  year : Int
  month : Int
  day : Int
  hour : Int
  minute : Int
  second : Int
deriving DecidableEq

instance : Inhabited DTime := ⟨⟨2000, 1, 1, 0, 0, 0⟩⟩

/-- Lexicographic strict order on equal-length integer lists, as Python
compares tuples. -/
def listIntLt : List Int → List Int → Bool
  | [], [] => false
  | [], _ :: _ => true
  | _ :: _, [] => false
  | a :: as, b :: bs => if a < b then true else if b < a then false else listIntLt as bs

/-- Python datetime comparison (same tzinfo): lexicographic on the fields. -/
def DTime.lt (a b : DTime) : Bool :=
  listIntLt [a.year, a.month, a.day, a.hour, a.minute, a.second]
    [b.year, b.month, b.day, b.hour, b.minute, b.second]

/-- Record schema of utils/constants.py (EPGDatasetSubsetInternal): the
EPGDatasetSubset fields plus the internal sampling weight. -/
structure EPGDatasetSubsetInternal where
  id : String
  network_id : Int
  service_id : Int
  transport_stream_id : Int
  event_id : Int
  start_time : DTime
  duration : Int
  title : String
  title_without_symbols : String
  description : String
  description_without_symbols : String
  major_genre_id : Int
  middle_genre_id : Int
  series_title : String := ""
  episode_number : Option String := none
  subtitle : Option String := none
  weight : ℚ := 1
deriving DecidableEq

instance : Inhabited EPGDatasetSubsetInternal :=
  ⟨⟨"", 0, 0, 0, 0, default, 0, "", "", "", "", 0, 0, "", none, none, 1⟩⟩

/-- 02-GenerateEPGDatasetSubset.py line 17. -/
def is_terrestrial (network_id : Int) : Bool :=
  decide (0x7880 ≤ network_id ∧ network_id ≤ 0x7FE8)

/-- 02-GenerateEPGDatasetSubset.py line 20. -/
def is_free_bs (network_id service_id : Int) : Bool :=
  decide (network_id = 0x0004 ∧
    ¬ ((191 ≤ service_id ∧ service_id ≤ 209) ∨ (234 ≤ service_id ∧ service_id ≤ 256)))

/-- 02-GenerateEPGDatasetSubset.py line 23. -/
def is_paid_bs_cs (network_id service_id : Int) : Bool :=
  decide ((network_id = 0x0006 ∨ network_id = 0x0007) ∨
    (network_id = 0x0004 ∧
      ((191 ≤ service_id ∧ service_id ≤ 209) ∨ (234 ≤ service_id ∧ service_id ≤ 256))))

/-- The fourth category of the spec: a pair matching none of the three
predicates is Unclassified (such records join no sampling pool). -/
def is_unclassified (network_id service_id : Int) : Bool :=
  !is_terrestrial network_id && !is_free_bs network_id service_id &&
    !is_paid_bs_cs network_id service_id

/-- Python str.isspace characters relevant here (ASCII whitespace and the
ideographic space; Python strips all Unicode whitespace, of which these are
the ones that can occur in EPG text). -/
def pyIsSpace (c : Char) : Bool :=
  c == ' ' || c == '\t' || c == '\n' || c == '\r' || c == '\x0b' || c == '\x0c' ||
    c == '　'

/-- Python str.strip on the underlying character list. -/
def pyStripList (l : List Char) : List Char :=
  ((l.dropWhile pyIsSpace).reverse.dropWhile pyIsSpace).reverse

/-- Python str.strip. -/
def pyStrip (s : String) : String := ⟨pyStripList s.data⟩

/-- 02-GenerateEPGDatasetSubset.py lines 26-40. -/
def meets_condition (data : EPGDatasetSubsetInternal) : Bool :=
  if data.major_genre_id = 0x2 ∧ data.middle_genre_id = 0x4 then false
  else if 0xC ≤ data.major_genre_id then false
  else if data.major_genre_id = -1 ∨ data.middle_genre_id = -1 then false
  else if pyStrip data.title = "" then false
  else true

/-- 02-GenerateEPGDatasetSubset.py lines 42-93, with float literals as exact
rationals (0.7 = 7/10, 1.5 = 3/2, 3.2 = 16/5, 0.25 = 1/4, 1.1 = 11/10,
2.2 = 11/5, 1.7 = 17/10, 0.8 = 4/5, 1.3 = 13/10). -/
def get_weight (data : EPGDatasetSubsetInternal) : ℚ :=
  let st := data.start_time
  let months_diff : Int := (st.year - 2019) * 12 + st.month - 10
  let months_diff : Int := max months_diff 0
  let weight : ℚ := (months_diff : ℚ) / 60 + 1
  if data.major_genre_id = 0x0 ∧ data.middle_genre_id = 0x0 then
    weight * (7/10)
  else if data.major_genre_id = 0x1 ∧ is_terrestrial data.network_id then
    weight * (3/2)
  else if data.major_genre_id = 0x3 ∧ data.middle_genre_id = 0x0 ∧
      is_terrestrial data.network_id then
    (if ¬ (4 ≤ st.hour ∧ st.hour ≤ 17) then weight * (16/5) else weight)
  else if data.major_genre_id = 0x3 ∧ data.middle_genre_id = 0x0 ∧
      ¬ is_terrestrial data.network_id then
    weight * (1/4)
  else if data.major_genre_id = 0x3 ∧ data.middle_genre_id = 0x1 then
    weight * (1/4)
  else if data.major_genre_id = 0x5 ∧ is_terrestrial data.network_id then
    weight * (11/10)
  else if data.major_genre_id = 0x6 ∧
      (is_terrestrial data.network_id ∨ is_free_bs data.network_id data.service_id) then
    (let weight := weight * (11/5)
     if data.middle_genre_id = 0x2 then weight * (17/10) else weight)
  else if data.major_genre_id = 0x7 ∧ data.middle_genre_id = 0x0 ∧
      (is_terrestrial data.network_id ∨ is_free_bs data.network_id data.service_id) then
    (if ¬ (4 ≤ st.hour ∧ st.hour ≤ 20) then weight * (11/5) else weight)
  else if data.major_genre_id = 0x8 ∧ is_terrestrial data.network_id then
    weight * (11/10)
  else if data.major_genre_id = 0xA then
    weight * (4/5)
  else if data.network_id = 0x0007 ∧ data.service_id = 333 ∧ data.major_genre_id = 0x7 then
    weight * (13/10)
  else
    weight

/-- The list built on line 188 of 02-GenerateEPGDatasetSubset.py: the
weight of each candidate, with already-selected indices masked to zero
(enumerate yields exactly the indices below the length). -/
def availableWeights (l : List EPGDatasetSubsetInternal) (sel : Finset ℕ) : List ℚ :=
  (List.range l.length).map fun i => if i ∈ sel then 0 else (l.getD i default).weight

/-- A possible behaviour of random.choices(range(n), weights, k=1)[0]: while
the total weight is positive it returns an index below the length whose
current weight is positive (an index of weight zero has probability zero). -/
def ValidPick (pick : List ℚ → ℕ) : Prop :=
  ∀ ws : List ℚ, 0 < ws.sum → pick ws < ws.length ∧ 0 < ws.getD (pick ws) 0

/-- Loop body of sample_data (02-GenerateEPGDatsetSubset.py lines 184-195),
recursing on the remaining iteration count of the for-range loop. -/
def sampleGo (pick : List ℚ → ℕ) (l : List EPGDatasetSubsetInternal) :
    ℕ → Finset ℕ → List EPGDatasetSubsetInternal
  | 0, _ => []
  | n + 1, sel =>
    if l.length ≤ sel.card then []
    else
      let ws := availableWeights l sel
      if ws.sum = 0 then []
      else
        let i := pick ws
        l.getD i default :: sampleGo pick l n (insert i sel)

/-- 02-GenerateEPGDatasetSubset.py lines 180-196, parametrised by the
random index chooser. -/
def sample_data (pick : List ℚ → ℕ) (data_list : List EPGDatasetSubsetInternal)
    (target_size : ℕ) : List EPGDatasetSubsetInternal :=
  sampleGo pick data_list target_size ∅

/-- The indices chosen by the successive draws of sample_data (same recursion
as sampleGo, recording chosen indices instead of records). -/
def sampleIdxGo (pick : List ℚ → ℕ) (l : List EPGDatasetSubsetInternal) :
    ℕ → Finset ℕ → List ℕ
  | 0, _ => []
  | n + 1, sel =>
    if l.length ≤ sel.card then []
    else
      let ws := availableWeights l sel
      if ws.sum = 0 then []
      else
        let i := pick ws
        i :: sampleIdxGo pick l n (insert i sel)

/-- Index trace of a run of sample_data. -/
def sampleIdx (pick : List ℚ → ℕ) (l : List EPGDatasetSubsetInternal)
    (target_size : ℕ) : List ℕ :=
  sampleIdxGo pick l target_size ∅

/-- One concrete valid chooser: the first index of positive weight.  Used to
instantiate theorems at concrete inputs. -/
def pickFirst : List ℚ → ℕ
  | [] => 0
  | w :: ws => if 0 < w then 0 else pickFirst ws + 1

/-- Python string comparison: lexicographic on code points. -/
def listCharLt : List Char → List Char → Bool
  | [], [] => false
  | [], _ :: _ => true
  | _ :: _, [] => false
  | a :: as, b :: bs =>
    if a.val < b.val then true else if b.val < a.val then false else listCharLt as bs

/-- Python string less-than. -/
def strLt (a b : String) : Bool := listCharLt a.data b.data

/-- Stable insertion into a list sorted ascending by id: the inserted element
(coming earlier in the original order) is placed before elements with an
equal key, as Python list.sort (stable) does. -/
def insertById (x : EPGDatasetSubsetInternal) :
    List EPGDatasetSubsetInternal → List EPGDatasetSubsetInternal
  | [] => [x]
  | y :: ys => if strLt y.id x.id then y :: insertById x ys else x :: y :: ys

/-- subsets.sort(key=lambda x: x.id): stable ascending sort by id. -/
def sortById : List EPGDatasetSubsetInternal → List EPGDatasetSubsetInternal
  | [] => []
  | x :: xs => insertById x (sortById xs)

/-- start_date is not None and fromisoformat(start_time) is before it. -/
def beforeStart (sd : Option DTime) (t : DTime) : Bool :=
  match sd with
  | none => false
  | some d => DTime.lt t d

/-- end_date is not None and fromisoformat(start_time) is after it. -/
def afterEnd (ed : Option DTime) (t : DTime) : Bool :=
  match ed with
  | none => false
  | some d => DTime.lt d t

/-- The four candidate lists built by the ingestion loop of
02-GenerateEPGDatasetSubset.py (all_epg_data and the three category pools). -/
structure Pools where
  all : List EPGDatasetSubsetInternal
  terrestrial : List EPGDatasetSubsetInternal
  free_bs : List EPGDatasetSubsetInternal
  paid_bs_cs : List EPGDatasetSubsetInternal
deriving DecidableEq

/-- Ingestion loop of 02-GenerateEPGDatasetSubset.py lines 147-174: skip on
failed condition, date range, or an already-seen (title, description) key;
otherwise assign the weight and append to all_epg_data and to the first
matching category pool.  seen is the unique_keys set. -/
def ingest02 (sd ed : Option DTime) :
    List EPGDatasetSubsetInternal → List (String × String) → Pools
  | [], _ => ⟨[], [], [], []⟩
  | x :: rest, seen =>
    if meets_condition x = false then ingest02 sd ed rest seen
    else if beforeStart sd x.start_time then ingest02 sd ed rest seen
    else if afterEnd ed x.start_time then ingest02 sd ed rest seen
    else if (x.title, x.description) ∈ seen then ingest02 sd ed rest seen
    else
      let x' := { x with weight := get_weight x }
      let p := ingest02 sd ed rest ((x.title, x.description) :: seen)
      { all := x' :: p.all
        terrestrial :=
          if is_terrestrial x.network_id then x' :: p.terrestrial else p.terrestrial
        free_bs :=
          if ¬ is_terrestrial x.network_id ∧ is_free_bs x.network_id x.service_id then
            x' :: p.free_bs
          else p.free_bs
        paid_bs_cs :=
          if ¬ is_terrestrial x.network_id ∧ ¬ is_free_bs x.network_id x.service_id ∧
              is_paid_bs_cs x.network_id x.service_id then
            x' :: p.paid_bs_cs
          else p.paid_bs_cs }

/-- Python int() applied to a float: truncation toward zero. -/
def pyInt (q : ℚ) : Int := if 0 ≤ q then ⌊q⌋ else -⌊-q⌋

/-- The id-deduplication loop of 02-GenerateEPGDatasetSubset.py lines
210-216, which mutates the list while a for-loop walks it: Python's iterator
is an index that advances by one each step, reading from the current state of
the list, and list.remove deletes the first element equal to its argument.
The fuel is an upper bound on the iteration count (the index grows by one per
step and the loop stops once it reaches the current length, which never
exceeds the initial length). -/
def dedupByIdGo : ℕ → List EPGDatasetSubsetInternal → ℕ → List String →
    List EPGDatasetSubsetInternal
  | 0, l, _, _ => l
  | fuel + 1, l, i, seen =>
    if h : i < l.length then
      let x := l.get ⟨i, h⟩
      if x.id ∈ seen then dedupByIdGo fuel (l.erase x) (i + 1) (x.id :: seen)
      else dedupByIdGo fuel l (i + 1) (x.id :: seen)
    else l

/-- The whole duplicate-id scan, started at index 0 with an empty seen set. -/
def dedupById (l : List EPGDatasetSubsetInternal) : List EPGDatasetSubsetInternal :=
  dedupByIdGo l.length l 0 []

/-- model_dump(exclude=weight): serialisation drops the weight field; a
record read back from the output carries the schema default weight 1. -/
def stripWeight (x : EPGDatasetSubsetInternal) : EPGDatasetSubsetInternal :=
  { x with weight := 1 }

/-- main of 02-GenerateEPGDatasetSubset.py as a function of the pre-read
input stream: if the output path already exists nothing is processed or
written (none); otherwise ingest, draw the three per-category samples
(65 % / 25 % / 10 % of subset_size, truncated), sort by id, run the
duplicate-id scan, and write the subset without weights. -/
def main02 (output_exists : Bool) (input : List EPGDatasetSubsetInternal)
    (pick : List ℚ → ℕ) (subset_size : Int) (start_date end_date : Option DTime) :
    Option (List EPGDatasetSubsetInternal) :=
  if output_exists then none
  else
    let pools := ingest02 start_date end_date input []
    let subset_size_terrestrial := (pyInt ((subset_size : ℚ) * (13/20))).toNat
    let subset_size_free_bs := (pyInt ((subset_size : ℚ) * (1/4))).toNat
    let subset_size_paid_bs_cs := (pyInt ((subset_size : ℚ) * (1/10))).toNat
    let subsets := sample_data pick pools.terrestrial subset_size_terrestrial ++
      sample_data pick pools.free_bs subset_size_free_bs ++
      sample_data pick pools.paid_bs_cs subset_size_paid_bs_cs
    some ((dedupById (sortById subsets)).map stripWeight)

/-- Decimal digit to character. -/
def digitChar : ℕ → Char
  | 0 => '0'
  | 1 => '1'
  | 2 => '2'
  | 3 => '3'
  | 4 => '4'
  | 5 => '5'
  | 6 => '6'
  | 7 => '7'
  | 8 => '8'
  | _ => '9'

/-- Decimal digits of a natural number, most significant first (the fuel
bounds the digit count; 30 covers every number below 10^30). -/
def natDigitsGo : ℕ → ℕ → List Char → List Char
  | 0, _, acc => acc
  | fuel + 1, n, acc =>
    if n < 10 then digitChar n :: acc
    else natDigitsGo fuel (n / 10) (digitChar (n % 10) :: acc)

/-- Decimal representation of a natural number. -/
def natDigits (n : ℕ) : List Char := natDigitsGo 30 n []

/-- Zero-padding to a fixed width, as strftime field formatting and the
Python format specifier 05d do for non-negative numbers. -/
def padNum (width : ℕ) (n : ℕ) : List Char :=
  List.replicate (width - (natDigits n).length) '0' ++ natDigits n

/-- The id built on line 142 of 01-GenerateEPGDataset.py:
start_time.strftime of YYYYMMDDHHMM followed by -NID, -SID, -EID segments
with onid, sid, eid zero-padded to five decimal digits.  Years are
four-digit (the strftime output for the years 1000-9999 in scope) and the
identifiers are the non-negative integers of the EDCB protocol. -/
def epg_id (start_time : DTime) (onid sid eid : ℕ) : String :=
  ⟨padNum 4 start_time.year.toNat ++ padNum 2 start_time.month.toNat ++
    padNum 2 start_time.day.toNat ++ padNum 2 start_time.hour.toNat ++
    padNum 2 start_time.minute.toNat ++
    "-NID".data ++ padNum 5 onid ++ "-SID".data ++ padNum 5 sid ++
    "-EID".data ++ padNum 5 eid⟩

/-- Indices of the candidate list that carry a positive weight (the positions
sample_data can ever draw). -/
def posIdx (l : List EPGDatasetSubsetInternal) : Finset ℕ :=
  (Finset.range l.length).filter fun i => 0 < (l.getD i default).weight

namespace GenOld

/-!
Model of the superseded genre-floor variant GenerateEPGDatasetSubset.py
(sampling stage, lines 111-157).  Its record class EPGDatasetSubset carries
the same fields consumed here (genre ids and id), so the shared record
structure is reused; the weight field is ignored by this variant's sampling.
random.sample(population, k) is modelled by an arbitrary function usample
whose results are always elements of the population (UniformSampleValid);
its k argument is an integer exactly as computed by the source.
-/

/-- The genre predicate of lines 144-146: domestic drama (0x3, 0x0) or
domestic anime (0x7, 0x0); Python operator precedence groups the two
conjunctions. -/
def genre_da (d : EPGDatasetSubsetInternal) : Bool :=
  decide ((d.major_genre_id = 0x3 ∧ d.middle_genre_id = 0x0) ∨
    (d.major_genre_id = 0x7 ∧ d.middle_genre_id = 0x0))

/-- What random.sample guarantees of its result: every returned element is
drawn from the population. -/
def UniformSampleValid
    (usample : List EPGDatasetSubsetInternal → Int → List EPGDatasetSubsetInternal) : Prop :=
  ∀ l k, ∀ x ∈ usample l k, x ∈ l

/-- Outcome of one run of the old sampling stage: the subset after the
initial stratified draw, the items appended by the minimum-representation
correction pass, and the final sorted subset. -/
structure OldRun where
  initial : List EPGDatasetSubsetInternal
  additional : List EPGDatasetSubsetInternal
  final : List EPGDatasetSubsetInternal
deriving DecidableEq

/-- GenerateEPGDatasetSubset.py lines 114-157: initial stratified draw
(60 % / 30 % / 10 %, truncated, capped by pool size), genre counts, the
15 % floors, the correction pass drawing from the genre-filtered category
pools, the downsample back to subset_size when the total exceeds it, and
the final sort by id. -/
def old_pipeline
    (usample : List EPGDatasetSubsetInternal → Int → List EPGDatasetSubsetInternal)
    (terrestrial_data free_bs_data paid_bs_cs_data : List EPGDatasetSubsetInternal)
    (subset_size : Int) : OldRun :=
  let initial_terrestrial_count : Int :=
    min (terrestrial_data.length : Int) (pyInt ((subset_size : ℚ) * (3/5)))
  let initial_free_bs_count : Int :=
    min (free_bs_data.length : Int) (pyInt ((subset_size : ℚ) * (3/10)))
  let initial_paid_bs_cs_count : Int :=
    min (paid_bs_cs_data.length : Int) (pyInt ((subset_size : ℚ) * (1/10)))
  let subsets := usample terrestrial_data initial_terrestrial_count ++
    usample free_bs_data initial_free_bs_count ++
    usample paid_bs_cs_data initial_paid_bs_cs_count
  let drama_count : Int :=
    (subsets.countP fun d => decide (d.major_genre_id = 0x3 ∧ d.middle_genre_id = 0x0) : ℕ)
  let anime_count : Int :=
    (subsets.countP fun d => decide (d.major_genre_id = 0x7 ∧ d.middle_genre_id = 0x0) : ℕ)
  let required_drama_count := pyInt ((subset_size : ℚ) * (3/20))
  let required_anime_count := pyInt ((subset_size : ℚ) * (3/20))
  if drama_count < required_drama_count ∨ anime_count < required_anime_count then
    let additional_drama_count := required_drama_count - drama_count
    let additional_anime_count := required_anime_count - anime_count
    let additional_terrestrial_data := terrestrial_data.filter genre_da
    let additional_free_bs_data := free_bs_data.filter genre_da
    let additional_paid_bs_cs_data := paid_bs_cs_data.filter genre_da
    let additional :=
      usample additional_terrestrial_data
        (min (additional_terrestrial_data.length : Int)
          (pyInt ((additional_drama_count : ℚ) * (3/5) + (additional_anime_count : ℚ) * (3/5)))) ++
      usample additional_free_bs_data
        (min (additional_free_bs_data.length : Int)
          (pyInt ((additional_drama_count : ℚ) * (3/10) + (additional_anime_count : ℚ) * (3/10)))) ++
      usample additional_paid_bs_cs_data
        (min (additional_paid_bs_cs_data.length : Int)
          (pyInt ((additional_drama_count : ℚ) * (1/10) + (additional_anime_count : ℚ) * (1/10))))
    let subsets2 := subsets ++ additional
    let subsets3 :=
      if subset_size < (subsets2.length : Int) then usample subsets2 subset_size else subsets2
    ⟨subsets, additional, sortById subsets3⟩
  else
    ⟨subsets, [], sortById subsets⟩

/-- One concrete possible behaviour of random.sample: take the first k
elements (it is a possible outcome of the uniform draw whenever
0 ≤ k ≤ population size, and the only one when k equals the size up to
order). -/
def usampleFirst (l : List EPGDatasetSubsetInternal) (k : Int) :
    List EPGDatasetSubsetInternal :=
  l.take k.toNat

end GenOld

/-- Prefix test on character lists. -/
def pfx : List Char → List Char → Bool
  | [], _ => true
  | _ :: _, [] => false
  | a :: as, b :: bs => a == b && pfx as bs

/-- First table entry whose token is a prefix of s: Python's regex
alternation of escaped literals tries the alternatives in table order at
each position. -/
def firstTok (table : List (List Char × List Char)) (s : List Char) :
    Option (List Char × List Char) :=
  table.find? fun p => pfx p.1 s

/-- The scan performed both by re.sub over an alternation of literal tokens
and by str.replace: walk left to right; at each position substitute the
first matching token and resume after it, otherwise keep the character.
Each step consumes at least one character, so fuel equal to the length of
the scanned list always suffices. -/
def subTGo (table : List (List Char × List Char)) : ℕ → List Char → List Char
  | 0, s => s
  | _ + 1, [] => []
  | fuel + 1, c :: rest =>
    match firstTok table (c :: rest) with
    | some (tok, repl) => repl ++ subTGo table fuel (List.drop (tok.length - 1) rest)
    | none => c :: subTGo table fuel rest

/-- Literal-token substitution pass over a whole list. -/
def subT (table : List (List Char × List Char)) (s : List Char) : List Char :=
  subTGo table s.length s

/-- str.translate with a character-to-character table (str.maketrans of the
merged FormatString table: every value is a single character). -/
def trLookup (table : List (Char × Char)) (c : Char) : Char :=
  match table.find? (fun p => p.1 == c) with
  | some p => p.2
  | none => c

/-- The merged translation table of FormatString (utils/epg.py lines 26-50):
full-width alphanumerics and punctuation to half-width, the four half-width
marks promoted to full-width, the sharp sign, and the wave dash. -/
def format_string_translation_map : List (Char × Char) :=
  [('０', '0'), ('１', '1'), ('２', '2'), ('３', '3'), ('４', '4'),
   ('５', '5'), ('６', '6'), ('７', '7'), ('８', '8'), ('９', '9'),
   ('Ａ', 'A'), ('Ｂ', 'B'), ('Ｃ', 'C'), ('Ｄ', 'D'), ('Ｅ', 'E'),
   ('Ｆ', 'F'), ('Ｇ', 'G'), ('Ｈ', 'H'), ('Ｉ', 'I'), ('Ｊ', 'J'),
   ('Ｋ', 'K'), ('Ｌ', 'L'), ('Ｍ', 'M'), ('Ｎ', 'N'), ('Ｏ', 'O'),
   ('Ｐ', 'P'), ('Ｑ', 'Q'), ('Ｒ', 'R'), ('Ｓ', 'S'), ('Ｔ', 'T'),
   ('Ｕ', 'U'), ('Ｖ', 'V'), ('Ｗ', 'W'), ('Ｘ', 'X'), ('Ｙ', 'Y'),
   ('Ｚ', 'Z'),
   ('ａ', 'a'), ('ｂ', 'b'), ('ｃ', 'c'), ('ｄ', 'd'), ('ｅ', 'e'),
   ('ｆ', 'f'), ('ｇ', 'g'), ('ｈ', 'h'), ('ｉ', 'i'), ('ｊ', 'j'),
   ('ｋ', 'k'), ('ｌ', 'l'), ('ｍ', 'm'), ('ｎ', 'n'), ('ｏ', 'o'),
   ('ｐ', 'p'), ('ｑ', 'q'), ('ｒ', 'r'), ('ｓ', 's'), ('ｔ', 't'),
   ('ｕ', 'u'), ('ｖ', 'v'), ('ｗ', 'w'), ('ｘ', 'x'), ('ｙ', 'y'),
   ('ｚ', 'z'),
   ('＂', '"'), ('＃', '#'), ('＄', '$'), ('％', '%'), ('＆', '&'),
   ('＇', '\''), ('（', '('), ('）', ')'), ('＋', '+'), ('，', ','),
   ('－', '-'), ('．', '.'), ('／', '/'), ('：', ':'), ('；', ';'),
   ('＜', '<'), ('＝', '='), ('＞', '>'), ('［', '['), ('＼', '\\'),
   ('］', ']'), ('＾', '^'), ('＿', '_'), ('｀', Char.ofNat 0x60),
   ('｛', Char.ofNat 0x7b), ('｜', '|'), ('｝', Char.ofNat 0x7d), ('　', ' '),
   ('!', '！'), ('?', '？'), ('*', '＊'), ('~', '～'),
   ('♯', '#'),
   ('〜', '～')]

/-- The ARIB alternative-representation table of FormatString (utils/epg.py
lines 66-118), in source order; the replacement code points are written with
Char.ofNat exactly as the source writes them with backslash-U escapes. -/
def format_string_regex_table : List (List Char × List Char) :=
  [("[HV]".data, [Char.ofNat 0x1F14A]),
   ("[SD]".data, [Char.ofNat 0x1F14C]),
   ("[P]".data, [Char.ofNat 0x1F13F]),
   ("[W]".data, [Char.ofNat 0x1F146]),
   ("[MV]".data, [Char.ofNat 0x1F14B]),
   ("[手]".data, [Char.ofNat 0x1F210]),
   ("[字]".data, [Char.ofNat 0x1F211]),
   ("[双]".data, [Char.ofNat 0x1F212]),
   ("[デ]".data, [Char.ofNat 0x1F213]),
   ("[S]".data, [Char.ofNat 0x1F142]),
   ("[二]".data, [Char.ofNat 0x1F214]),
   ("[多]".data, [Char.ofNat 0x1F215]),
   ("[解]".data, [Char.ofNat 0x1F216]),
   ("[SS]".data, [Char.ofNat 0x1F14D]),
   ("[B]".data, [Char.ofNat 0x1F131]),
   ("[N]".data, [Char.ofNat 0x1F13D]),
   ("[天]".data, [Char.ofNat 0x1F217]),
   ("[交]".data, [Char.ofNat 0x1F218]),
   ("[映]".data, [Char.ofNat 0x1F219]),
   ("[無]".data, [Char.ofNat 0x1F21A]),
   ("[料]".data, [Char.ofNat 0x1F21B]),
   ("[・]".data, "⚿".data),
   ("[前]".data, [Char.ofNat 0x1F21C]),
   ("[後]".data, [Char.ofNat 0x1F21D]),
   ("[再]".data, [Char.ofNat 0x1F21E]),
   ("[新]".data, [Char.ofNat 0x1F21F]),
   ("[初]".data, [Char.ofNat 0x1F220]),
   ("[終]".data, [Char.ofNat 0x1F221]),
   ("[生]".data, [Char.ofNat 0x1F222]),
   ("[販]".data, [Char.ofNat 0x1F223]),
   ("[声]".data, [Char.ofNat 0x1F224]),
   ("[吹]".data, [Char.ofNat 0x1F225]),
   ("[PPV]".data, [Char.ofNat 0x1F14E]),
   ("(秘)".data, "㊙".data),
   ("[ほか]".data, [Char.ofNat 0x1F200]),
   ("m^2".data, "m²".data),
   ("m^3".data, "m³".data),
   ("cm^2".data, "cm²".data),
   ("cm^3".data, "cm³".data),
   ("km^2".data, "km²".data),
   ("[社]".data, "㈳".data),
   ("[財]".data, "㈶".data),
   ("[有]".data, "㈲".data),
   ("[株]".data, "㈱".data),
   ("[代]".data, "㈹".data),
   ("(問)".data, "㉄".data),
   ("^2".data, "²".data),
   ("^3".data, "³".data),
   ("(箏)".data, "㉇".data),
   ("(〒)".data, "〶".data),
   ("()()".data, "⚾".data)]

/-- The str.replace of CRLF by LF on line 126 of utils/epg.py, expressed as
the same left-to-right literal scan. -/
def crlfTable : List (List Char × List Char) := [(['\r', '\n'], ['\n'])]

/-- FormatString (utils/epg.py lines 12-129): translate, replace the ARIB
alternative representations, then replace CRLF by LF. -/
def FormatString (s : String) : String :=
  ⟨subT crlfTable
    (subT format_string_regex_table
      (s.data.map (trLookup format_string_translation_map)))⟩

/-- Single-character matcher: the regex dot (which does not match a newline
without DOTALL) or a character class. -/
inductive CItem where
  | anyc : CItem
  | oneOf : List Char → CItem
deriving DecidableEq

/-- Whether a character class accepts a character. -/
def citemMatch (ci : CItem) (c : Char) : Bool :=
  match ci with
  | .anyc => c != '\n'
  | .oneOf cs => cs.contains c

/-- Abstract syntax of the regular expressions used by RemoveSymbols:
literals (case sensitive and the IGNORECASE variant), one character of a
class, bounded or unbounded repetition of a single-character class (with
the lazy flag; every quantifier in the source patterns quantifies a
single-character item), concatenation, ordered alternation, the single
capturing group, and the dollar assertion. -/
inductive RE where
  | lit : List Char → RE
  | litCI : List Char → RE
  | one : CItem → RE
  | rep : CItem → ℕ → Option ℕ → Bool → RE
  | seq : RE → RE → RE
  | alt : RE → RE → RE
  | grp : RE → RE
  | endMark : RE
deriving DecidableEq

/-- Case-insensitive prefix test (Python IGNORECASE folds case; the folding
of the ASCII letters occurring in the flagged patterns is lowercasing). -/
def pfxCI : List Char → List Char → Bool
  | [], _ => true
  | _ :: _, [] => false
  | a :: as, b :: bs => a.toLower == b.toLower && pfxCI as bs

/-- Length of the maximal run of class characters at the head of the list. -/
def runLen (ci : CItem) : List Char → ℕ
  | [] => 0
  | c :: rest => if citemMatch ci c then runLen ci rest + 1 else 0

/-- Repetition counts from lo to m in the engine's preference order:
ascending for a lazy quantifier, descending for a greedy one. -/
def countRange (lo m : ℕ) (lazyOrd : Bool) : List ℕ :=
  if lazyOrd then (List.range (m + 1 - lo)).map fun i => lo + i
  else (List.range (m + 1 - lo)).map fun i => m - i

/-- All ways a regex can match a prefix of s, each given as the remaining
suffix together with the contents of the capturing group if one matched,
listed in the preference order of a backtracking engine (Python re):
alternatives in order, lazy repetitions shortest first, greedy ones longest
first.  The head of the list is the match Python finds. -/
def mtch : RE → List Char → List (List Char × Option (List Char))
  | .lit t, s => if pfx t s then [(s.drop t.length, none)] else []
  | .litCI t, s => if pfxCI t s then [(s.drop t.length, none)] else []
  | .one ci, s =>
    match s with
    | [] => []
    | c :: rest => if citemMatch ci c then [(rest, none)] else []
  | .rep ci lo hi lz, s =>
    let m := min (runLen ci s) (hi.getD s.length)
    (countRange lo m lz).map fun k => (s.drop k, none)
  | .seq a b, s =>
    (mtch a s).flatMap fun p => (mtch b p.1).map fun q => (q.1, p.2 <|> q.2)
  | .alt a b, s => mtch a s ++ mtch b s
  | .grp a, s => (mtch a s).map fun p => (p.1, some (s.take (s.length - p.1.length)))
  | .endMark, s => if s = [] ∨ s = ['\n'] then [(s, none)] else []

/-- Python's preferred match of a pattern at the head of s: number of
consumed characters and the captured group. -/
def tryMatch (re : RE) (s : List Char) : Option (ℕ × Option (List Char)) :=
  match mtch re s with
  | [] => none
  | p :: _ => some (s.length - p.1.length, p.2)

/-- Replacement template of re.sub: a literal text, or the captured title
group followed by one space (the template of the branding-prefix rules). -/
inductive Repl where
  | txt : List Char → Repl
  | capSp : Repl
deriving DecidableEq

/-- Instantiate a replacement template with the captured group. -/
def applyRepl : Repl → Option (List Char) → List Char
  | .txt t, _ => t
  | .capSp, cap => cap.getD [] ++ [' ']

/-- One substitution rule of the source: whether the pattern is anchored at
the start with a caret, the pattern, and the replacement template. -/
structure Rule where
  anchored : Bool
  pat : RE
  rep : Repl
deriving DecidableEq

/-- The re.sub scan for an unanchored pattern: at each position substitute
the preferred match and resume after it (no pattern of the source can match
the empty string, so every match consumes at least one character and fuel
equal to the length suffices). -/
def reSubGo (re : RE) (rp : Repl) : ℕ → List Char → List Char
  | 0, s => s
  | _ + 1, [] => []
  | fuel + 1, c :: rest =>
    match tryMatch re (c :: rest) with
    | some (k, cap) => applyRepl rp cap ++ reSubGo re rp fuel (List.drop (k - 1) rest)
    | none => c :: reSubGo re rp fuel rest

/-- re.sub for one rule: a caret-anchored pattern can only match at the
start, so it is applied at most once there; otherwise scan the whole list. -/
def applyRule (r : Rule) (s : List Char) : List Char :=
  if r.anchored then
    match tryMatch r.pat s with
    | some (k, cap) => applyRepl r.rep cap ++ s.drop k
    | none => s
  else reSubGo r.pat r.rep s.length s

/-- Literal pattern. -/
def rl (s : String) : RE := RE.lit s.data

/-- Case-insensitive literal pattern. -/
def rlCI (s : String) : RE := RE.litCI s.data

/-- Concatenation of a pattern list. -/
def rsq (rs : List RE) : RE :=
  match rs with
  | [] => RE.lit []
  | [r] => r
  | r :: rest => RE.seq r (rsq rest)

/-- Ordered alternation of a pattern list (never used empty; the empty case
is an unmatchable pattern). -/
def ral (rs : List RE) : RE :=
  match rs with
  | [] => RE.rep (CItem.oneOf []) 1 (some 1) false
  | [r] => r
  | r :: rest => RE.alt r (ral rest)

/-- The lazy dot-star of the title groups. -/
def lazyStar : RE := RE.rep CItem.anyc 0 none true

/-- The greedy bounded dot repetition of the bracket rules. -/
def anyUpTo8 : RE := RE.rep CItem.anyc 0 (some 8) false

/-- The digit class of the regex d escape: a Unicode digit (the decimal
digits that occur in EPG text are the ASCII and the full-width ones). -/
def digitsClass : CItem :=
  CItem.oneOf ['0', '1', '2', '3', '4', '5', '6', '7', '8', '9',
    '０', '１', '２', '３', '４', '５', '６', '７', '８', '９']

/-- The one-or-two-digit greedy quantifier of the source. -/
def d12 : RE := RE.rep digitsClass 1 (some 2) false

/-- One character of the explicit ASCII class zero to nine of the source. -/
def d1 : RE :=
  RE.one (CItem.oneOf ['0', '1', '2', '3', '4', '5', '6', '7', '8', '9'])

/-- The weekday alternation of the source. -/
def wk : RE := ral [rl "月", rl "火", rl "水", rl "木", rl "金", rl "土", rl "日"]

/-- An anchored branding prefix followed by a bracketed title group, with
the title-plus-space replacement. -/
def titleRule (pre : RE) (opn cls : String) : Rule :=
  ⟨true, rsq [pre, rl opn, RE.grp lazyStar, rl cls], Repl.capSp⟩

/-- Unanchored deletion rule. -/
def rule0 (pat : RE) : Rule := ⟨false, pat, Repl.txt []⟩

/-- Anchored deletion rule. -/
def ruleA (pat : RE) : Rule := ⟨true, pat, Repl.txt []⟩

/-- Rule with an explicit replacement text. -/
def ruleTxt (anch : Bool) (pat : RE) (t : String) : Rule := ⟨anch, pat, Repl.txt t.data⟩

/-- The enclosed-character translation table of RemoveSymbols (utils/epg.py
lines 149-183): symbol code point to bracketed text, in source order; the
keys are written with Char.ofNat exactly as the source writes them with
backslash-U escapes. -/
def enclosed_characters_table : List (Char × List Char) :=
  [(Char.ofNat 0x1F14A, "[HV]".data),
   (Char.ofNat 0x1F14C, "[SD]".data),
   (Char.ofNat 0x1F13F, "[P]".data),
   (Char.ofNat 0x1F146, "[W]".data),
   (Char.ofNat 0x1F14B, "[MV]".data),
   (Char.ofNat 0x1F210, "[手]".data),
   (Char.ofNat 0x1F211, "[字]".data),
   (Char.ofNat 0x1F212, "[双]".data),
   (Char.ofNat 0x1F213, "[デ]".data),
   (Char.ofNat 0x1F142, "[S]".data),
   (Char.ofNat 0x1F214, "[二]".data),
   (Char.ofNat 0x1F215, "[多]".data),
   (Char.ofNat 0x1F216, "[解]".data),
   (Char.ofNat 0x1F14D, "[SS]".data),
   (Char.ofNat 0x1F131, "[B]".data),
   (Char.ofNat 0x1F13D, "[N]".data),
   (Char.ofNat 0x1F217, "[天]".data),
   (Char.ofNat 0x1F218, "[交]".data),
   (Char.ofNat 0x1F219, "[映]".data),
   (Char.ofNat 0x1F21A, "[無]".data),
   (Char.ofNat 0x1F21B, "[料]".data),
   (Char.ofNat 0x1F21C, "[前]".data),
   (Char.ofNat 0x1F21D, "[後]".data),
   ('⚿', "[・]".data),
   (Char.ofNat 0x1F21E, "[再]".data),
   (Char.ofNat 0x1F21F, "[新]".data),
   (Char.ofNat 0x1F220, "[初]".data),
   (Char.ofNat 0x1F221, "[終]".data),
   (Char.ofNat 0x1F222, "[生]".data),
   (Char.ofNat 0x1F223, "[販]".data),
   (Char.ofNat 0x1F224, "[声]".data),
   (Char.ofNat 0x1F225, "[吹]".data),
   (Char.ofNat 0x1F14E, "[PPV]".data)]

/-- str.translate with string values: each translated character is replaced
by the corresponding character list. -/
def translateS (table : List (Char × List Char)) (s : List Char) : List Char :=
  s.flatMap fun c =>
    match table.find? (fun p => p.1 == c) with
    | some p => p.2
    | none => [c]

/-- The mark alternation of utils/epg.py lines 195-197, in source order;
the unescaped dots of the three numeric marks are the regex dot. -/
def markRE : RE :=
  ral [rlCI "新", rlCI "終", rlCI "再", rlCI "交", rlCI "映", rlCI "手", rlCI "声",
    rlCI "多", rlCI "副", rlCI "字", rlCI "文", rlCI "CC", rlCI "OP", rlCI "二",
    rlCI "S", rlCI "B", rlCI "SS", rlCI "無", rlCI "無料",
    rlCI "C", rlCI "S1", rlCI "S2", rlCI "S3", rlCI "MV", rlCI "双", rlCI "デ",
    rlCI "D", rlCI "N", rlCI "W", rlCI "P", rlCI "H", rlCI "HV", rlCI "SD",
    rlCI "天", rlCI "解", rlCI "料", rlCI "前", rlCI "後初", rlCI "生", rlCI "販",
    rlCI "吹", rlCI "PPV",
    rlCI "演", rlCI "移", rlCI "他", rlCI "収", rlCI "・", rlCI "英", rlCI "韓",
    rlCI "中", rlCI "字/日", rlCI "字/日英", rlCI "3D", rlCI "2K", rlCI "4K",
    rlCI "8K", rsq [rlCI "5", RE.one CItem.anyc, rlCI "1"],
    rsq [rlCI "7", RE.one CItem.anyc, rlCI "1"],
    rsq [rlCI "22", RE.one CItem.anyc, rlCI "2"],
    rlCI "60P", rlCI "120P", rlCI "d", rlCI "HC", rlCI "HDR", rlCI "SHV",
    rlCI "UHD", rlCI "VOD", rlCI "配", rlCI "初"]

/-- utils/epg.py line 198 (IGNORECASE): a recognised mark in ASCII
parentheses, substituted by a space. -/
def pattern1Rule : Rule :=
  ⟨false,
    rsq [rl "(",
      ral [rlCI "二", rlCI "字", rlCI "字幕", rlCI "再", rlCI "再放送", rlCI "吹",
        rlCI "吹替", rlCI "無料", rlCI "無料放送"],
      rl ")"],
    Repl.txt [' ']⟩

/-- utils/epg.py line 199 (IGNORECASE): a mark in square brackets. -/
def pattern2Rule : Rule := ⟨false, rsq [rl "[", markRE, rl "]"], Repl.txt [' ']⟩

/-- utils/epg.py line 200 (IGNORECASE): a mark in cornered brackets. -/
def pattern3Rule : Rule := ⟨false, rsq [rl "【", markRE, rl "】"], Repl.txt [' ']⟩

/-- The drama-block alternation of utils/epg.py lines 279-283. -/
def dramaBlock : RE :=
  ral [rl "+", rl "パラビ", rl "Paravi", rl "NEXT", rsq [rl "プレミア", d12],
    rl "チューズ！", rl "ホリック！", rl "ストリーム"]

/-- The weekday drama-block alternation of utils/epg.py line 288. -/
def wkDrama1 : RE :=
  ral [rl "ドラ", rl "ドラ★イレブン", rl "曜劇場", rl "曜ドラマ", rl "曜ナイトドラマ"]

/-- The weekday drama-block alternation of utils/epg.py lines 290-296. -/
def wkDrama2 : RE :=
  ral [rl "ドラ", rl "曜劇場", rl "曜ドラマ", rl "曜ドラマDEEP", rl "曜ナイトドラマ"]

/-- The midnight drama-block alternation of utils/epg.py lines 297-301. -/
def midnightDrama : RE :=
  ral [rl "真夜中ドラマ", rl "シンドラ", rl "ドラマL", rl "Zドラマ", rl "よるおびドラマ"]

/-- The star alternation of the source. -/
def stars : RE := ral [rl "★", rl "☆", rl "◆", rl "◇"]

/-- The Chinese-or-Korean drama prefix alternations of lines 323-327. -/
def cnkr : RE := ral [rl "中", rl "韓"]

/-- Second group of lines 323-327. -/
def cnkrKind : RE := ral [rl "国", rl "国BL", rl "国歴史", rl "流", rl "流BL"]

/-- Second group of lines 335-338. -/
def cnkrPeriod : RE := ral [rl "国", rl "流", rl "国ファンタジー"]

/-- The noise-removal cascade of RemoveSymbols (utils/epg.py lines 211-353),
one rule per re.sub call, in source order. -/
def noise_rules : List Rule :=
  [rule0 (rl "※2K放送"),
   rule0 (rl "※字幕スーパー"),
   rule0 (rsq [rl "<", ral [rl "HD", rl "SD"], rl ">"]),
   rule0 (rl "<字幕>"),
   rule0 (rl "<字幕スーパー>"),
   rule0 (rl "<字幕・レターボックスサイズ>"),
   rule0 (rl "<字幕スーパー・レターボックスサイズ>"),
   rule0 (rl "<レターボックスサイズ>"),
   rule0 (rl "<ノーカット字幕>"),
   rule0 (rsq [rl "<", ral [rl "初放送", rl "TV初放送", rl "地上波初放送"], rl ">"]),
   rule0 (rl "〔字幕〕"),
   rule0 (rl "〔字幕スーパー〕"),
   rule0 (rl "【字幕】"),
   rule0 (rl "【字幕スーパー】"),
   rule0 (rl "【無料】"),
   rule0 (rl "【KNTV】"),
   rule0 (rl "【中】"),
   rule0 (rl "【韓】"),
   rule0 (rl "【リクエスト】"),
   rule0 (rl "【解説放送】"),
   rule0 (rl "<独占>"),
   rule0 (rl "【独占】"),
   rule0 (rl "<独占放送>"),
   rule0 (rl "【独占放送】"),
   rule0 (rl "【最新作】"),
   rule0 (rl "【歌詞入り】"),
   rule0 (rsq [rl "【", anyUpTo8, rl "ドラマ】"]),
   rule0 (rsq [rl "【ドラマ", anyUpTo8, rl "】"]),
   rule0 (rsq [rl "【", anyUpTo8, rl "夜ドラ", anyUpTo8, rl "】"]),
   rule0 (rsq [rl "【", anyUpTo8, rl "昼ドラ", anyUpTo8, rl "】"]),
   rule0 (rsq [rl "【", anyUpTo8, rl "時代劇", anyUpTo8, rl "】"]),
   rule0 (rsq [rl "【", anyUpTo8, rl "一挙", anyUpTo8, rl "】"]),
   rule0 (rsq [rl "【", lazyStar, rl "日本初", lazyStar, rl "】"]),
   rule0 (rsq [rl "【", lazyStar, rl "初放送", lazyStar, rl "】"]),
   rule0 (rsq [rl "<", lazyStar, rl "一挙", lazyStar, rl ">"]),
   ruleA (rsq [rl "TV初", stars]),
   ruleA (rsq [rl "[",
     ral [rl "録", rl "映画", rl "バラエティ", rl "旅バラエティ", rl "釣り",
       rl "プロレス", rl "ゴルフ", rl "プロ野球", rl "高校野球", rl "ゴルフ",
       rl "テニス", rl "モーター", rl "モータースポーツ", rl "卓球", rl "ラグビー",
       rl "ボウリング", rl "バレーボール", rl "アメリカンフットボール"],
     rl "]"]),
   ruleA (rl "特: "),
   ruleA (rl "アニメ "),
   ruleA (rl "アニメ・"),
   titleRule (rl "アニメ") "「" "」",
   titleRule (rl "アニメ") "『" "』",
   ruleA (rsq [rl "アニメ", d12, rl "・"]),
   ruleA (rsq [rl "アニメ", d12]),
   ruleA (rl "テレビアニメ "),
   ruleA (rl "テレビアニメ・"),
   titleRule (rl "テレビアニメ") "「" "」",
   titleRule (rl "テレビアニメ") "『" "』",
   ruleA (rl "TVアニメ "),
   ruleA (rl "TVアニメ・"),
   titleRule (rl "TVアニメ") "「" "」",
   titleRule (rl "TVアニメ") "『" "』",
   ruleA (rl "ドラマ "),
   ruleA (rl "ドラマ・"),
   titleRule (rl "ドラマ") "「" "」",
   titleRule (rl "ドラマ") "『" "』",
   ruleA (rl "ドラマシリーズ "),
   ruleA (rl "ドラマシリーズ・"),
   titleRule (rl "ドラマシリーズ") "「" "」",
   titleRule (rl "ドラマシリーズ") "『" "』",
   titleRule (rl "大河ドラマ") "「" "」",
   titleRule (rl "大河ドラマ") "『" "』",
   ruleTxt true (rl "【連続テレビ小説】") "連続テレビ小説 ",
   rule0 (rsq [rl "【", ral [rl "朝", rl "昼", rl "夕", rl "夕方", rl "夜"],
     rl "アンコール】"]),
   rule0 (rsq [rl "【", ral [rl "あさ", rl "ひる", rl "よる"], rl "ドラ】"]),
   rule0 (rsq [rl "【", ral [rl "あさ", rl "ひる", rl "よる"], rl "ドラアンコール】"]),
   ruleA (rsq [rl "ドラマ", d12, rl "・"]),
   ruleA (rsq [rl "ドラマ", d12]),
   ruleA (rsq [rl "ドラマ", dramaBlock, rl " "]),
   ruleA (rsq [rl "ドラマ", dramaBlock, rl "・"]),
   titleRule (rsq [rl "ドラマ", dramaBlock]) "「" "」",
   titleRule (rsq [rl "ドラマ", dramaBlock]) "『" "』",
   ruleA (rsq [rl "ドラマ", dramaBlock]),
   rule0 (rsq [rl "<BSフジ", lazyStar, rl ">"]),
   rule0 (rsq [rl "<フジバラナイト ",
     ral [rl "SAT", rl "SUN", rl "MON", rl "TUE", rl "WED", rl "THU", rl "FRI"],
     rl ">"]),
   rule0 (rsq [rl "<", wk,
     ral [rl "曜PLUS", rl "曜ACTION", rl "曜NEXT", rl "曜RISE"], rl "！>"]),
   rule0 (rsq [rl "<",
     ral [rl "名作ドラマ劇場", rl "午後の名作ドラマ劇場",
       rsq [rl "ブレイクマンデー", d12], rl "フジテレビからの！", rl "サンデーMIDNIGHT"],
     rl ">"]),
   rule0 (rsq [rl "<", wk, wkDrama1, rl ">"]),
   ruleA (rsq [rl "オトナの", wk, rl "ドラ"]),
   ruleA (rsq [wk, wkDrama2, rl " "]),
   ruleA (rsq [wk, wkDrama2, rl "・"]),
   titleRule (rsq [wk, wkDrama2]) "「" "」",
   titleRule (rsq [wk, wkDrama2]) "『" "』",
   ruleA (rsq [wk, wkDrama2, d12, rl "・"]),
   ruleA (rsq [wk, wkDrama2, d12]),
   ruleA (rsq [wk, wkDrama2]),
   ruleA (rsq [midnightDrama, rl " "]),
   ruleA (rsq [midnightDrama, rl "・"]),
   titleRule midnightDrama "「" "」",
   titleRule midnightDrama "『" "』",
   ruleA midnightDrama,
   ruleA (rl "連続ドラマW"),
   ruleTxt false (rsq [stars, rl "ドラマイズム】"]) "】",
   rule0 (rl "<韓ドラ>"),
   rule0 (rl "【韓ドラ】"),
   ruleA (rl "韓ドラ "),
   ruleA (rl "韓ドラ・"),
   titleRule (rl "韓ドラ") "「" "」",
   titleRule (rl "韓ドラ") "『" "』",
   ruleA (rsq [ral [rl "台湾", rl "タイ"], rl "ドラマ "]),
   ruleA (rsq [ral [rl "台湾", rl "タイ"], rl "ドラマ・"]),
   titleRule (rsq [ral [rl "台湾", rl "タイ"], rl "ドラマ"]) "「" "」",
   titleRule (rsq [ral [rl "台湾", rl "タイ"], rl "ドラマ"]) "『" "』",
   ruleA (rsq [rl "韓", stars]),
   ruleA (rsq [rl "韓ドラ", stars]),
   ruleA (rsq [rl "華", stars]),
   ruleA (rsq [rl "華ドラ", stars]),
   ruleA (rsq [ral [rl "中国", rl "中華", rl "韓国", rl "韓ドラ"], rl "時代劇", stars]),
   ruleA (rsq [ral [rl "韓流プレミア", rsq [rl "韓流朝ドラ", d12]], rl " "]),
   ruleA (rl "韓流プレミア・"),
   titleRule (rl "韓流プレミア") "「" "」",
   titleRule (rl "韓流プレミア") "『" "』",
   ruleA (rsq [cnkr, cnkrKind, rl "ドラマ "]),
   ruleA (rsq [cnkr, cnkrKind, rl "ドラマ・"]),
   titleRule (rsq [cnkr, cnkrKind, rl "ドラマ"]) "「" "」",
   titleRule (rsq [cnkr, cnkrKind, rl "ドラマ"]) "『" "』",
   titleRule (rsq [cnkr, cnkrKind, rl "ドラマ"]) "【" "】",
   rule0 (rsq [rl "<時代劇", lazyStar, rl ">"]),
   rule0 (rsq [rl "(", d1, d1, d1, rl "ch",
     ral [rl "時代劇", rl "中国ドラマ", rl "韓国ドラマ"], rl ")"]),
   rule0 (rl "【時代劇】"),
   ruleA (rl "時代劇 "),
   ruleA (rl "時代劇・"),
   titleRule (rl "時代劇") "「" "」",
   titleRule (rl "時代劇") "『" "』",
   ruleA (rsq [cnkr, cnkrPeriod, rl "時代劇 "]),
   ruleA (rsq [cnkr, cnkrPeriod, rl "時代劇・"]),
   titleRule (rsq [cnkr, cnkrPeriod, rl "時代劇"]) "「" "」",
   titleRule (rsq [cnkr, cnkrPeriod, rl "時代劇"]) "『" "』",
   titleRule (rsq [wk, d1]) "「" "」",
   titleRule (rsq [wk, d1]) "『" "』",
   ruleA (rl "アニメA "),
   ruleA (rl "アニメA・"),
   rule0 (rl "<アニメギルド>"),
   rule0 (rsq [rl "<", ral [rl "M", rl "T", rl "W"], rl "ナイト>"]),
   rule0 (rl "<ノイタミナ>"),
   rule0 (rl "<+Ultra>"),
   rule0 (rl "<B8station>"),
   rule0 (rl "AnichU"),
   rule0 (rl "FRIDAY ANIME NIGHT"),
   ruleA (rsq [wk, rl "曜アニメ・水もん "]),
   rule0 (rsq [rl "【",
     ral [rl "アニメ", rl "アニメシャワー", rl "アニメ特区", rl "アニメイズム",
       rl "スーパーアニメイズム", rl "ヌマニメーション", rl "ANiMAZiNG！！！",
       rl "ANiMAZiNG2！！！"],
     rl "】"]),
   rule0 (rsq [rl "アニメイズム", RE.endMark]),
   ruleA (rl "・")]

/-- The run-of-blanks collapse of utils/epg.py line 359. -/
def collapseRule : Rule :=
  ⟨false, RE.rep (CItem.oneOf [' ', '\t']) 1 none false, Repl.txt [' ']⟩

/-- RemoveSymbols (utils/epg.py lines 132-362): translate the enclosed
symbols to bracketed text, blank out recognised parenthesised and bracketed
marks, strip, run the noise cascade in order, strip again, and collapse runs
of blanks. -/
def RemoveSymbols (s : String) : String :=
  ⟨applyRule collapseRule
    (pyStripList
      (noise_rules.foldl (fun acc r => applyRule r acc)
        (pyStripList
          (applyRule pattern3Rule
            (applyRule pattern2Rule
              (applyRule pattern1Rule
                (translateS enclosed_characters_table s.data)))))))⟩

/-- Eligibility of a record in the ingestion loop of the 02 script, apart
from the duplicate-key check: the content conditions and the date range. -/
def eligible02 (sd ed : Option DTime) (x : EPGDatasetSubsetInternal) : Bool :=
  meets_condition x && !beforeStart sd x.start_time && !afterEnd ed x.start_time

/-- Reference definition, following the claim's words: keep exactly the
first record of each (title, description) key, given the keys already seen. -/
def firstPerKey (seen : List (String × String)) :
    List EPGDatasetSubsetInternal → List EPGDatasetSubsetInternal
  | [] => []
  | x :: rest =>
    if (x.title, x.description) ∈ seen then firstPerKey seen rest
    else x :: firstPerKey ((x.title, x.description) :: seen) rest

/-- Separation conditions on a literal-substitution table: tokens and
replacements are nonempty, no nonempty token suffix is prefix-comparable
with a replacement, and no nonempty replacement suffix is
prefix-comparable with a token.  They hold for the ARIB table of
FormatString and make its scan idempotent. -/
def SepTable (table : List (List Char × List Char)) : Prop :=
  (∀ p ∈ table, p.1 ≠ [] ∧ p.2 ≠ []) ∧
  (∀ p ∈ table, ∀ u ∈ p.1.tails, u ≠ [] → ∀ q ∈ table,
    pfx u q.2 = false ∧ pfx q.2 u = false) ∧
  (∀ p ∈ table, ∀ s ∈ p.2.tails, s ≠ [] → ∀ q ∈ table,
    pfx q.1 s = false ∧ pfx s q.1 = false)

/-- No table token matches at any position of s. -/
def NoTok (table : List (List Char × List Char)) (s : List Char) : Prop :=
  ∀ n, firstTok table (List.drop n s) = none

/-- Concrete records instantiating the theorems.  A positive-weight
terrestrial record. -/
def recPos : EPGDatasetSubsetInternal :=
  { id := "A1", network_id := 0x7880, service_id := 1, transport_stream_id := 1,
    event_id := 1, start_time := ⟨2020, 1, 1, 0, 0, 0⟩, duration := 1800,
    title := "t1", title_without_symbols := "t1", description := "d1",
    description_without_symbols := "d1", major_genre_id := 0x8,
    middle_genre_id := 0x0, weight := 1 }

/-- A candidate whose weight is zero. -/
def recZero : EPGDatasetSubsetInternal :=
  { recPos with id := "A2", title := "t2", description := "d2", weight := 0 }

/-- A positive-weight record for the sampling-without-replacement witness. -/
def rec9 : EPGDatasetSubsetInternal :=
  { recPos with id := "W9", title := "t9", description := "d9", weight := 1 }

/-- Three records sharing one id with pairwise distinct titles, each
passing the ingestion conditions (terrestrial, documentary genre). -/
def rec3A : EPGDatasetSubsetInternal :=
  { recPos with id := "X", title := "A", description := "" }

/-- Second record with the duplicated id. -/
def rec3B : EPGDatasetSubsetInternal :=
  { recPos with id := "X", title := "B", description := "" }

/-- Third record with the duplicated id. -/
def rec3C : EPGDatasetSubsetInternal :=
  { recPos with id := "X", title := "C", description := "" }

/-- A terrestrial domestic-drama record at hour 20 of a month of 2024. -/
def rec7 : EPGDatasetSubsetInternal :=
  { recPos with
    id := "R7"
    title := "t7"
    description := "d7"
    major_genre_id := 0x3
    middle_genre_id := 0x0
    start_time := ⟨2024, 5, 1, 20, 0, 0⟩ }

/-- A terrestrial domestic-drama record for the genre-floor variant. -/
def recOld : EPGDatasetSubsetInternal :=
  { recPos with
    id := "D"
    title := "tD"
    description := "dD"
    major_genre_id := 0x3
    middle_genre_id := 0x0 }

/-- C6: for every pair of integers (network_id, service_id) exactly one of
the four channel categories holds; the three source predicates are pairwise
disjoint and a pair satisfying none of them is Unclassified. -/
theorem channel_categories_partition (network_id service_id : Int) :
    (is_terrestrial network_id = true ∨ is_free_bs network_id service_id = true ∨
      is_paid_bs_cs network_id service_id = true ∨
      is_unclassified network_id service_id = true) ∧
    ¬ (is_terrestrial network_id = true ∧ is_free_bs network_id service_id = true) ∧
    ¬ (is_terrestrial network_id = true ∧ is_paid_bs_cs network_id service_id = true) ∧
    ¬ (is_free_bs network_id service_id = true ∧
       is_paid_bs_cs network_id service_id = true) ∧
    ¬ (is_unclassified network_id service_id = true ∧
       (is_terrestrial network_id = true ∨ is_free_bs network_id service_id = true ∨
        is_paid_bs_cs network_id service_id = true)) := by
  simp only [is_unclassified, is_terrestrial, is_free_bs, is_paid_bs_cs,
    Bool.and_eq_true, Bool.not_eq_true', decide_eq_true_eq, decide_eq_false_iff_not]
  omega

/-- C7: a terrestrial domestic-drama record of year 2024 at hour 20 gets
exactly the clamped recency base anchored at October 2019 times the
terrestrial drama factor, because hour 20 lies outside the 4-17 window. -/
theorem get_weight_drama_2024_hour20 (d : EPGDatasetSubsetInternal)
    (hmaj : d.major_genre_id = 0x3) (hmid : d.middle_genre_id = 0x0)
    (hterr : is_terrestrial d.network_id = true)
    (hyear : d.start_time.year = 2024) (hhour : d.start_time.hour = 20)
    (hmonth : 1 ≤ d.start_time.month) :
    get_weight d =
      (((2024 - 2019) * 12 + (d.start_time.month : ℚ) - 10) / 60 + 1) * (16/5) := by
  simp only [get_weight, hmaj, hmid, hyear, hhour, hterr]
  norm_num
  have hm : ((60 : ℚ) + (d.start_time.month : ℚ) - 10) ⊔ 0 =
      60 + (d.start_time.month : ℚ) - 10 := by
    rw [sup_eq_left]
    have h1 : (1 : ℚ) ≤ (d.start_time.month : ℚ) := by exact_mod_cast hmonth
    linarith
  rw [hm]

/-- Witness for the weight example at a concrete May 2024 record. -/
theorem get_weight_drama_2024_hour20_witness :
    get_weight rec7 =
      (((2024 - 2019) * 12 + (rec7.start_time.month : ℚ) - 10) / 60 + 1) * (16/5) :=
  get_weight_drama_2024_hour20 rec7 rfl rfl (by decide) rfl rfl (by decide)

/-- C5: the id equals the minute-formatted start time followed by the
zero-padded NID, SID and EID segments; the given example record yields the
stated id, and the id depends only on the start time truncated to the
minute together with the three identifiers. -/
theorem epg_id_spec :
    epg_id ⟨2021, 10, 23, 1, 53, 0⟩ 32742 1072 27730 =
      "202110230153-NID32742-SID01072-EID27730" ∧
    ∀ st st' : DTime, ∀ onid sid eid : ℕ,
      st.year = st'.year → st.month = st'.month → st.day = st'.day →
      st.hour = st'.hour → st.minute = st'.minute →
      epg_id st onid sid eid = epg_id st' onid sid eid := by
  refine ⟨by decide, ?_⟩
  intro st st' onid sid eid h1 h2 h3 h4 h5
  unfold epg_id
  rw [h1, h2, h3, h4, h5]

/-- Witness: two start times differing only in the seconds produce the same
id. -/
theorem epg_id_spec_witness :
    epg_id ⟨2021, 10, 23, 1, 53, 0⟩ 32742 1072 27730 =
      epg_id ⟨2021, 10, 23, 1, 53, 30⟩ 32742 1072 27730 :=
  epg_id_spec.2 ⟨2021, 10, 23, 1, 53, 0⟩ ⟨2021, 10, 23, 1, 53, 30⟩ 32742 1072 27730
    rfl rfl rfl rfl rfl

/-- C8: when the output path already exists the subset generator writes
nothing and processes no input, for every input dataset, chooser, size and
date range. -/
theorem main02_aborts_on_existing_output (input : List EPGDatasetSubsetInternal)
    (pick : List ℚ → ℕ) (subset_size : Int) (start_date end_date : Option DTime) :
    main02 true input pick subset_size start_date end_date = none := rfl

/-- The weight list has the length of the candidate list. -/
theorem availableWeights_length (l : List EPGDatasetSubsetInternal) (sel : Finset ℕ) :
    (availableWeights l sel).length = l.length := by
  simp [availableWeights]

/-- Entry i of the masked weight list. -/
theorem availableWeights_getD (l : List EPGDatasetSubsetInternal) (sel : Finset ℕ)
    {i : ℕ} (hi : i < l.length) :
    (availableWeights l sel).getD i 0 =
      if i ∈ sel then 0 else (l.getD i default).weight := by
  unfold availableWeights
  rw [List.getD_eq_getElem?_getD, List.getElem?_map, List.getElem?_range hi]
  rfl

/-- A list indexed below its length yields one of its members. -/
theorem getD_mem_of_lt (l : List EPGDatasetSubsetInternal) {i : ℕ} (h : i < l.length) :
    l.getD i default ∈ l := by
  rw [List.getD_eq_getElem?_getD, List.getElem?_eq_getElem h]
  exact List.getElem_mem h

/-- List sum over a mapped range as a Finset sum. -/
theorem sum_map_range (f : ℕ → ℚ) (n : ℕ) :
    ((List.range n).map f).sum = ∑ i ∈ Finset.range n, f i := by
  induction n with
  | zero => simp
  | succ n ih =>
    rw [List.range_succ, List.map_append, List.sum_append, Finset.sum_range_succ, ih]
    simp

/-- The masked weight sum as a Finset sum. -/
theorem availableWeights_sum (l : List EPGDatasetSubsetInternal) (sel : Finset ℕ) :
    (availableWeights l sel).sum =
      ∑ i ∈ Finset.range l.length,
        if i ∈ sel then 0 else (l.getD i default).weight := by
  unfold availableWeights
  exact sum_map_range _ _

/-- Non-negative weights give a non-negative masked sum. -/
theorem availableWeights_sum_nonneg (l : List EPGDatasetSubsetInternal)
    (hw : ∀ r ∈ l, 0 ≤ r.weight) (sel : Finset ℕ) :
    0 ≤ (availableWeights l sel).sum := by
  rw [availableWeights_sum]
  refine Finset.sum_nonneg fun i hi => ?_
  split
  · exact le_refl 0
  · exact hw _ (getD_mem_of_lt l (Finset.mem_range.mp hi))

/-- With non-negative weights the masked sum vanishes exactly when every
positive-weight position has already been selected. -/
theorem availableWeights_sum_eq_zero (l : List EPGDatasetSubsetInternal)
    (hw : ∀ r ∈ l, 0 ≤ r.weight) (sel : Finset ℕ) :
    (availableWeights l sel).sum = 0 ↔ posIdx l ⊆ sel := by
  rw [availableWeights_sum,
    Finset.sum_eq_zero_iff_of_nonneg (fun i hi => by
      split
      · exact le_refl 0
      · exact hw _ (getD_mem_of_lt l (Finset.mem_range.mp hi)))]
  constructor
  · intro h i hi
    rw [posIdx, Finset.mem_filter] at hi
    by_contra hin
    have h2 := h i hi.1
    rw [if_neg hin] at h2
    exact absurd h2 (ne_of_gt hi.2)
  · intro h i hi
    by_cases hin : i ∈ sel
    · rw [if_pos hin]
    · rw [if_neg hin]
      by_contra hne
      have hpos : 0 < (l.getD i default).weight :=
        lt_of_le_of_ne (hw _ (getD_mem_of_lt l (Finset.mem_range.mp hi))) (Ne.symm hne)
      exact hin (h (by rw [posIdx, Finset.mem_filter]; exact ⟨hi, hpos⟩))

/-- A valid chooser applied to a nonzero masked sum picks an unselected
position of positive weight. -/
theorem pick_step (pick : List ℚ → ℕ) (hp : ValidPick pick)
    (l : List EPGDatasetSubsetInternal) (hw : ∀ r ∈ l, 0 ≤ r.weight) (sel : Finset ℕ)
    (hsum : (availableWeights l sel).sum ≠ 0) :
    pick (availableWeights l sel) ∈ posIdx l \ sel := by
  have hpos : 0 < (availableWeights l sel).sum :=
    lt_of_le_of_ne (availableWeights_sum_nonneg l hw sel) (Ne.symm hsum)
  obtain ⟨hlen, hval⟩ := hp _ hpos
  rw [availableWeights_length] at hlen
  rw [availableWeights_getD _ _ hlen] at hval
  by_cases hin : pick (availableWeights l sel) ∈ sel
  · rw [if_pos hin] at hval
    exact absurd hval (lt_irrefl 0)
  · rw [if_neg hin] at hval
    rw [Finset.mem_sdiff, posIdx, Finset.mem_filter, Finset.mem_range]
    exact ⟨⟨hlen, hval⟩, hin⟩

/-- Length invariant of the sampling loop, generalised over the set of
already-selected positions. -/
theorem sampleGo_length (pick : List ℚ → ℕ) (hp : ValidPick pick)
    (l : List EPGDatasetSubsetInternal) (hw : ∀ r ∈ l, 0 ≤ r.weight) :
    ∀ (k : ℕ) (sel : Finset ℕ), sel ⊆ Finset.range l.length →
      (sampleGo pick l k sel).length = min k (posIdx l \ sel).card := by
  intro k
  induction k with
  | zero => intro sel _; simp [sampleGo]
  | succ k ih =>
    intro sel hsub
    rw [sampleGo]
    by_cases hcard : l.length ≤ sel.card
    · rw [if_pos hcard]
      have hsel : sel = Finset.range l.length :=
        Finset.eq_of_subset_of_card_le hsub (by simpa using hcard)
      have hempty : posIdx l \ sel = ∅ := by
        rw [hsel, Finset.sdiff_eq_empty_iff_subset]
        exact Finset.filter_subset _ _
      simp [hempty]
    · rw [if_neg hcard]
      by_cases hsum : (availableWeights l sel).sum = 0
      · rw [if_pos hsum]
        have hempty : posIdx l \ sel = ∅ := by
          rw [Finset.sdiff_eq_empty_iff_subset]
          exact (availableWeights_sum_eq_zero l hw sel).mp hsum
        simp [hempty]
      · rw [if_neg hsum]
        have hmem := pick_step pick hp l hw sel hsum
        rw [Finset.mem_sdiff] at hmem
        have hlt : pick (availableWeights l sel) < l.length := by
          have h2 := hmem.1
          rw [posIdx, Finset.mem_filter, Finset.mem_range] at h2
          exact h2.1
        rw [List.length_cons,
          ih (insert (pick (availableWeights l sel)) sel)
            (Finset.insert_subset (Finset.mem_range.mpr hlt) hsub)]
        rw [Finset.sdiff_insert, Finset.card_erase_of_mem (by
          rw [Finset.mem_sdiff]; exact hmem)]
        have hpos : 1 ≤ (posIdx l \ sel).card :=
          Finset.card_pos.mpr ⟨_, by rw [Finset.mem_sdiff]; exact hmem⟩
        omega

/-- C1 (amended): for a candidate list of non-negative weights and any
possible run of the weighted draws, the sample length is the minimum of the
requested size and the number of positive-weight candidates (not of the
whole list: positions of weight zero are never drawn and the early exit on
a vanishing remaining total stops before them). -/
theorem sample_data_length (pick : List ℚ → ℕ) (hp : ValidPick pick)
    (data_list : List EPGDatasetSubsetInternal)
    (hw : ∀ r ∈ data_list, 0 ≤ r.weight) (target_size : ℕ) :
    (sample_data pick data_list target_size).length =
      min target_size (posIdx data_list).card := by
  unfold sample_data
  rw [sampleGo_length pick hp data_list hw target_size ∅ (Finset.empty_subset _)]
  rw [Finset.sdiff_empty]

/-- The first-positive-index chooser is a possible behaviour of the random
weighted draw. -/
theorem pickFirst_valid : ValidPick pickFirst := by
  intro ws
  induction ws with
  | nil => intro h; simp at h
  | cons w ws ih =>
    intro hsum
    by_cases hw : 0 < w
    · simp [pickFirst, hw]
    · have hle : w ≤ 0 := le_of_not_lt hw
      have hsum2 : 0 < ws.sum := by
        rw [List.sum_cons] at hsum
        by_contra hc
        push_neg at hc
        linarith
      obtain ⟨h1, h2⟩ := ih hsum2
      rw [pickFirst]
      rw [if_neg hw]
      constructor
      · simpa using h1
      · simpa using h2

/-- Counterexample to C1 as stated: a two-candidate pool with weights one
and zero (all non-negative, not all zero) and requested size two yields a
sample of length one, not min of two and the pool size. -/
theorem sample_data_length_cex :
    (∀ r ∈ [recPos, recZero], 0 ≤ r.weight) ∧
    (∃ r ∈ [recPos, recZero], r.weight ≠ 0) ∧
    (sample_data pickFirst [recPos, recZero] 2).length ≠
      min 2 [recPos, recZero].length := by
  refine ⟨by decide, ⟨recPos, by decide⟩, by decide⟩

/-- Witness: the amended statement applied to the same concrete pool. -/
theorem sample_data_length_witness :
    (sample_data pickFirst [recPos, recZero] 2).length =
      min 2 (posIdx [recPos, recZero]).card :=
  sample_data_length pickFirst pickFirst_valid [recPos, recZero] (by decide) 2

/-- Invariants of the index trace of the sampling loop: all emitted indices
are fresh in-range positions of positive weight, the trace has no
duplicates, and the emitted records are exactly the records at the traced
positions. -/
theorem sampleIdxGo_spec (pick : List ℚ → ℕ) (hp : ValidPick pick)
    (l : List EPGDatasetSubsetInternal) (hw : ∀ r ∈ l, 0 ≤ r.weight) :
    ∀ (k : ℕ) (sel : Finset ℕ),
      (∀ i ∈ sampleIdxGo pick l k sel,
        i ∉ sel ∧ i < l.length ∧ 0 < (l.getD i default).weight) ∧
      (sampleIdxGo pick l k sel).Nodup ∧
      sampleGo pick l k sel =
        (sampleIdxGo pick l k sel).map fun i => l.getD i default := by
  intro k
  induction k with
  | zero => intro sel; refine ⟨by simp [sampleIdxGo], by simp [sampleIdxGo], ?_⟩; simp [sampleIdxGo, sampleGo]
  | succ k ih =>
    intro sel
    rw [sampleIdxGo, sampleGo]
    by_cases hcard : l.length ≤ sel.card
    · rw [if_pos hcard, if_pos hcard]
      exact ⟨by simp, by simp, by simp⟩
    · rw [if_neg hcard, if_neg hcard]
      by_cases hsum : (availableWeights l sel).sum = 0
      · rw [if_pos hsum, if_pos hsum]
        exact ⟨by simp, by simp, by simp⟩
      · rw [if_neg hsum, if_neg hsum]
        have hmem := pick_step pick hp l hw sel hsum
        rw [Finset.mem_sdiff, posIdx, Finset.mem_filter, Finset.mem_range] at hmem
        obtain ⟨⟨hlt, hpos⟩, hnotin⟩ := hmem
        obtain ⟨ihmem, ihnodup, iheq⟩ :=
          ih (insert (pick (availableWeights l sel)) sel)
        refine ⟨?_, ?_, ?_⟩
        · intro i hi
          rcases List.mem_cons.mp hi with h | h
          · subst h; exact ⟨hnotin, hlt, hpos⟩
          · obtain ⟨hni, hl, hp2⟩ := ihmem i h
            exact ⟨fun hm => hni (Finset.mem_insert_of_mem hm), hl, hp2⟩
        · rw [List.nodup_cons]
          refine ⟨fun hm => ?_, ihnodup⟩
          exact (ihmem _ hm).1 (Finset.mem_insert_self _ _)
        · show l.getD (pick (availableWeights l sel)) default ::
              sampleGo pick l k (insert (pick (availableWeights l sel)) sel) =
            List.map (fun i => l.getD i default)
              (pick (availableWeights l sel) ::
                sampleIdxGo pick l k (insert (pick (availableWeights l sel)) sel))
          rw [List.map_cons, iheq]

/-- C9: every run of sample_data draws pairwise distinct positions of the
candidate list (genuine sampling without replacement); the returned records
are exactly the records at those positions, every drawn position has
positive weight and is in range, and a position already selected is masked
to weight zero in every later weight list. -/
theorem sample_data_without_replacement (pick : List ℚ → ℕ) (hp : ValidPick pick)
    (data_list : List EPGDatasetSubsetInternal)
    (hw : ∀ r ∈ data_list, 0 ≤ r.weight) (target_size : ℕ) :
    (sampleIdx pick data_list target_size).Nodup ∧
    sample_data pick data_list target_size =
      (sampleIdx pick data_list target_size).map (fun i => data_list.getD i default) ∧
    (∀ i ∈ sampleIdx pick data_list target_size,
      i < data_list.length ∧ 0 < (data_list.getD i default).weight) ∧
    (∀ (sel : Finset ℕ), ∀ i ∈ sel, i < data_list.length →
      (availableWeights data_list sel).getD i 0 = 0) := by
  obtain ⟨hmem, hnodup, heq⟩ :=
    sampleIdxGo_spec pick hp data_list hw target_size ∅
  refine ⟨hnodup, heq, fun i hi => ⟨(hmem i hi).2.1, (hmem i hi).2.2⟩, ?_⟩
  intro sel i hi hlt
  rw [availableWeights_getD _ _ hlt, if_pos hi]

/-- Witness for the without-replacement theorem on a one-element pool. -/
theorem sample_data_without_replacement_witness :
    (sampleIdx pickFirst [rec9] 1).Nodup ∧
    sample_data pickFirst [rec9] 1 =
      (sampleIdx pickFirst [rec9] 1).map (fun i => [rec9].getD i default) ∧
    (∀ i ∈ sampleIdx pickFirst [rec9] 1,
      i < [rec9].length ∧ 0 < ([rec9].getD i default).weight) ∧
    (∀ (sel : Finset ℕ), ∀ i ∈ sel, i < [rec9].length →
      (availableWeights [rec9] sel).getD i 0 = 0) :=
  sample_data_without_replacement pickFirst pickFirst_valid [rec9] (by decide) 1

/-- The ingestion loop keeps exactly the first eligible record of every
(title, description) key, generalised over the already-seen keys. -/
theorem ingest02_all_eq (sd ed : Option DTime) :
    ∀ (input : List EPGDatasetSubsetInternal) (seen : List (String × String)),
      (ingest02 sd ed input seen).all =
        (firstPerKey seen (input.filter (eligible02 sd ed))).map
          fun x => { x with weight := get_weight x } := by
  intro input
  induction input with
  | nil => intro seen; rfl
  | cons x rest ih =>
    intro seen
    rw [ingest02, List.filter_cons]
    by_cases h1 : meets_condition x = false
    · rw [if_pos h1]
      have he : eligible02 sd ed x = false := by
        simp [eligible02, h1]
      rw [if_neg (by simp [he]), ih seen]
    · rw [if_neg h1]
      by_cases h2 : beforeStart sd x.start_time = true
      · rw [if_pos h2]
        have he : eligible02 sd ed x = false := by
          simp [eligible02, h2]
        rw [if_neg (by simp [he]), ih seen]
      · rw [if_neg h2]
        by_cases h3 : afterEnd ed x.start_time = true
        · rw [if_pos h3]
          have he : eligible02 sd ed x = false := by
            simp [eligible02, h3]
          rw [if_neg (by simp [he]), ih seen]
        · rw [if_neg h3]
          have he : eligible02 sd ed x = true := by
            simp only [eligible02, Bool.and_eq_true, Bool.not_eq_true']
            refine ⟨⟨?_, by simpa using h2⟩, by simpa using h3⟩
            cases hmc : meets_condition x
            · exact absurd hmc h1
            · rfl
          rw [if_pos he]
          by_cases h4 : (x.title, x.description) ∈ seen
          · rw [if_pos h4, firstPerKey, if_pos h4, ih seen]
          · rw [if_neg h4]
            show ({ x with weight := get_weight x } ::
                (ingest02 sd ed rest ((x.title, x.description) :: seen)).all) = _
            rw [firstPerKey, if_neg h4, List.map_cons,
              ih ((x.title, x.description) :: seen)]

/-- The keys of a first-per-key pass are duplicate-free and avoid the seen
set. -/
theorem firstPerKey_keys_nodup :
    ∀ (l : List EPGDatasetSubsetInternal) (seen : List (String × String)),
      ((firstPerKey seen l).map fun x => (x.title, x.description)).Nodup ∧
      ∀ k ∈ (firstPerKey seen l).map (fun x => (x.title, x.description)), k ∉ seen := by
  intro l
  induction l with
  | nil => intro seen; exact ⟨List.nodup_nil, by simp [firstPerKey]⟩
  | cons x rest ih =>
    intro seen
    rw [firstPerKey]
    by_cases h : (x.title, x.description) ∈ seen
    · rw [if_pos h]; exact ih seen
    · rw [if_neg h]
      obtain ⟨hnd, hnotin⟩ := ih ((x.title, x.description) :: seen)
      refine ⟨?_, ?_⟩
      · rw [List.map_cons, List.nodup_cons]
        exact ⟨fun hm => (hnotin _ hm) (List.mem_cons_self _ _), hnd⟩
      · intro k hk
        rw [List.map_cons] at hk
        rcases List.mem_cons.mp hk with hx | hm
        · rw [hx]; exact h
        · intro hks
          exact (hnotin k hm) (List.mem_cons_of_mem _ hks)

/-- C10: among input records passing the eligibility checks that share a
(title, description) pair, exactly the first in input order enters the
candidate pool (with its weight then assigned); the keys of the pool are
pairwise distinct, so every later record with the same pair is skipped. -/
theorem ingest02_first_per_key (sd ed : Option DTime)
    (input : List EPGDatasetSubsetInternal) :
    (ingest02 sd ed input []).all =
      (firstPerKey [] (input.filter (eligible02 sd ed))).map
        (fun x => { x with weight := get_weight x }) ∧
    ((ingest02 sd ed input []).all.map fun x => (x.title, x.description)).Nodup := by
  have h := ingest02_all_eq sd ed input []
  refine ⟨h, ?_⟩
  rw [h, List.map_map]
  exact (firstPerKey_keys_nodup (input.filter (eligible02 sd ed)) []).1

/-- Taking a prefix is a possible outcome of random.sample. -/
theorem usampleFirst_valid : GenOld.UniformSampleValid GenOld.usampleFirst := by
  intro l k x hx
  exact List.mem_of_mem_take hx

/-- C2 (amended): every item appended by the minimum-representation
correction pass of the genre-floor variant is a domestic-drama or
domestic-anime record of the corresponding full category pool.  The pass
draws from the genre-filtered pools, not from their unused remainders, so a
record already chosen by the initial draw can be appended again. -/
theorem old_correction_draws_from_genre_pools
    (usample : List EPGDatasetSubsetInternal → Int → List EPGDatasetSubsetInternal)
    (hu : GenOld.UniformSampleValid usample)
    (terrestrial_data free_bs_data paid_bs_cs_data : List EPGDatasetSubsetInternal)
    (subset_size : Int) :
    ∀ x ∈ (GenOld.old_pipeline usample terrestrial_data free_bs_data paid_bs_cs_data
        subset_size).additional,
      (x ∈ terrestrial_data ∨ x ∈ free_bs_data ∨ x ∈ paid_bs_cs_data) ∧
        GenOld.genre_da x = true := by
  intro x hx
  rw [GenOld.old_pipeline] at hx
  split at hx
  · simp only [List.mem_append] at hx
    rcases hx with (hx | hx) | hx
    · have hm := hu _ _ _ hx
      rw [List.mem_filter] at hm
      exact ⟨Or.inl hm.1, hm.2⟩
    · have hm := hu _ _ _ hx
      rw [List.mem_filter] at hm
      exact ⟨Or.inr (Or.inl hm.1), hm.2⟩
    · have hm := hu _ _ _ hx
      rw [List.mem_filter] at hm
      exact ⟨Or.inr (Or.inr hm.1), hm.2⟩
  · exact absurd hx (List.not_mem_nil x)

/-- Witness: the amended statement applied at a one-record drama pool. -/
theorem old_correction_draws_from_genre_pools_witness :
    (recOld ∈ [recOld] ∨ recOld ∈ ([] : List EPGDatasetSubsetInternal) ∨
      recOld ∈ ([] : List EPGDatasetSubsetInternal)) ∧
    GenOld.genre_da recOld = true :=
  old_correction_draws_from_genre_pools GenOld.usampleFirst usampleFirst_valid
    [recOld] [] [] 100 recOld (by decide)

/-- Counterexample to C2 as stated: with a single terrestrial domestic-drama
record, subset size 100 and the forced uniform draws, the anime count after
the initial draw is below the floor, and the correction pass appends the
very record the initial draw already selected, leaving it twice in the
final subset. -/
theorem old_correction_reuses_selected :
    (GenOld.old_pipeline GenOld.usampleFirst [recOld] [] [] 100).initial = [recOld] ∧
    ((GenOld.old_pipeline GenOld.usampleFirst [recOld] [] [] 100).initial.countP
        (fun d => decide (d.major_genre_id = 0x7 ∧ d.middle_genre_id = 0x0)) : Int) <
      pyInt ((100 : ℚ) * (3/20)) ∧
    (GenOld.old_pipeline GenOld.usampleFirst [recOld] [] [] 100).additional = [recOld] ∧
    (GenOld.old_pipeline GenOld.usampleFirst [recOld] [] [] 100).final =
      [recOld, recOld] := by
  refine ⟨by decide, by decide, by decide, by decide⟩

/-- C3 evaluation at the failing input: three eligible terrestrial records
share the id X (with distinct titles, so they all survive the
title-description dedup); under a forced valid outcome of the weighted
draws all three are sampled, and the duplicate-id scan of the final pass
leaves two of them in the serialized subset, because the scan advances its
index past the element following each removal and so never examines the
third duplicate. -/
theorem dedup_id_bug_eval :
    main02 false [rec3A, rec3B, rec3C] pickFirst 5 none none =
      some [rec3A, rec3C] ∧
    rec3A.id = rec3C.id ∧ rec3A ≠ rec3C := by
  refine ⟨by decide, by decide, by decide⟩

/-- Decomposing a prefix of an appended list. -/
theorem pfx_append_elim : ∀ (a u b : List Char), pfx u (a ++ b) = true →
    pfx u a = true ∨ (pfx a u = true ∧ pfx (u.drop a.length) b = true) := by
  intro a
  induction a with
  | nil =>
    intro u b h
    exact Or.inr ⟨rfl, h⟩
  | cons c as ih =>
    intro u b h
    cases u with
    | nil => exact Or.inl rfl
    | cons d us =>
      simp only [List.cons_append, pfx, Bool.and_eq_true, beq_iff_eq] at h
      obtain ⟨hdc, hrest⟩ := h
      rcases ih us b hrest with h1 | ⟨h2, h3⟩
      · left
        simp [pfx, hdc, h1]
      · right
        refine ⟨by simp [pfx, hdc.symm, h2], ?_⟩
        simpa using h3

/-- A prefix of a cons is empty or carries the head. -/
theorem pfx_cons_elim {u : List Char} {c : Char} {w : List Char}
    (h : pfx u (c :: w) = true) : u = [] ∨ ∃ u', u = c :: u' ∧ pfx u' w = true := by
  cases u with
  | nil => exact Or.inl rfl
  | cons d us =>
    simp only [pfx, Bool.and_eq_true, beq_iff_eq] at h
    exact Or.inr ⟨us, by rw [h.1], h.2⟩

/-- A singleton head is a prefix. -/
theorem pfx_head (c : Char) (w : List Char) : pfx [c] (c :: w) = true := by
  simp [pfx]

/-- Extending a prefix along a shared head. -/
theorem pfx_cons_intro {c : Char} {u w : List Char} (h : pfx u w = true) :
    pfx (c :: u) (c :: w) = true := by
  simp [pfx, h]

/-- The found table entry is in the table and its token matches. -/
theorem firstTok_some {table : List (List Char × List Char)} {s : List Char}
    {p : List Char × List Char} (h : firstTok table s = some p) :
    p ∈ table ∧ pfx p.1 s = true := by
  unfold firstTok at h
  exact ⟨List.mem_of_find?_eq_some h, by simpa using List.find?_some h⟩

/-- No entry is found exactly when no token matches. -/
theorem firstTok_none_iff {table : List (List Char × List Char)} {s : List Char} :
    firstTok table s = none ↔ ∀ p ∈ table, pfx p.1 s = false := by
  unfold firstTok
  rw [List.find?_eq_none]
  constructor
  · intro h p hp
    have := h p hp
    simpa using this
  · intro h p hp
    simp [h p hp]

/-- The empty list matches no token of a table of nonempty tokens. -/
theorem noTok_nil (table : List (List Char × List Char))
    (ht : ∀ p ∈ table, p.1 ≠ []) : NoTok table [] := by
  intro n
  rw [List.drop_nil, firstTok_none_iff]
  intro p hp
  cases hp1 : p.1 with
  | nil => exact absurd hp1 (ht p hp)
  | cons c cs => rfl

/-- Splitting the no-match property at a head. -/
theorem noTok_cons_elim {table : List (List Char × List Char)} {c : Char}
    {w : List Char} (h : NoTok table (c :: w)) :
    firstTok table (c :: w) = none ∧ NoTok table w := by
  refine ⟨h 0, fun n => ?_⟩
  have h2 := h (n + 1)
  simpa using h2

/-- The scan is the identity on a list without matches. -/
theorem subTGo_of_noTok (table : List (List Char × List Char)) :
    ∀ (fuel : ℕ) (l : List Char), NoTok table l → subTGo table fuel l = l := by
  intro fuel
  induction fuel with
  | zero => intro l _; rfl
  | succ fuel ih =>
    intro l h
    cases l with
    | nil => rfl
    | cons c w =>
      obtain ⟨h0, hrest⟩ := noTok_cons_elim h
      simp only [subTGo, h0]
      rw [ih w hrest]

/-- A nonempty token suffix that is a prefix of a scan result is already a
prefix of the scanned list (the separation conditions forbid it from
entering or spanning a replacement). -/
theorem pfx_subTGo_transfer (table : List (List Char × List Char))
    (hsep : SepTable table) :
    ∀ (fuel : ℕ) (l u : List Char), (∃ p ∈ table, u ∈ p.1.tails) → u ≠ [] →
      pfx u (subTGo table fuel l) = true → pfx u l = true := by
  intro fuel
  induction fuel with
  | zero => intro l u _ _ h; exact h
  | succ fuel ih =>
    intro l u hu hne h
    cases l with
    | nil =>
      cases u with
      | nil => exact absurd rfl hne
      | cons c us => exact absurd h (by simp [subTGo, pfx])
    | cons c w =>
      cases hft : firstTok table (c :: w) with
      | some p =>
        simp only [subTGo, hft] at h
        obtain ⟨hpmem, _⟩ := firstTok_some hft
        obtain ⟨q, hq, hu'⟩ := hu
        rcases pfx_append_elim p.2 u _ h with h1 | ⟨h2, _⟩
        · have hc := (hsep.2.1 q hq u hu' hne p hpmem).1
          rw [h1] at hc
          exact absurd hc (by simp)
        · have hc := (hsep.2.1 q hq u hu' hne p hpmem).2
          rw [h2] at hc
          exact absurd hc (by simp)
      | none =>
        simp only [subTGo, hft] at h
        rcases pfx_cons_elim h with rfl | ⟨u', rfl, hu2⟩
        · exact absurd rfl hne
        · by_cases hu'e : u' = []
          · subst hu'e
            exact pfx_head c w
          · obtain ⟨q, hq, hmem⟩ := hu
            have hmem' : u' ∈ q.1.tails := by
              rw [List.mem_tails] at hmem ⊢
              obtain ⟨pre, hpre⟩ := hmem
              exact ⟨pre ++ [c], by simpa using hpre⟩
            exact pfx_cons_intro (ih w u' ⟨q, hq, hmem'⟩ hu'e hu2)

/-- After one scan over a table satisfying the separation conditions no
token matches anywhere in the result. -/
theorem noTok_subTGo (table : List (List Char × List Char)) (hsep : SepTable table) :
    ∀ (fuel : ℕ) (l : List Char), l.length ≤ fuel →
      NoTok table (subTGo table fuel l) := by
  intro fuel
  induction fuel with
  | zero =>
    intro l hl
    have hnil : l = [] := List.eq_nil_of_length_eq_zero (Nat.le_zero.mp hl)
    subst hnil
    exact noTok_nil table fun p hp => (hsep.1 p hp).1
  | succ fuel ih =>
    intro l hl
    cases l with
    | nil => exact noTok_nil table fun p hp => (hsep.1 p hp).1
    | cons c w =>
      cases hft : firstTok table (c :: w) with
      | some p =>
        obtain ⟨hpmem, _⟩ := firstTok_some hft
        have hrec : NoTok table (subTGo table fuel (w.drop (p.1.length - 1))) := by
          apply ih
          calc (w.drop (p.1.length - 1)).length ≤ w.length := by
                rw [List.length_drop]; omega
          _ ≤ fuel := by
                have := hl
                simp only [List.length_cons] at this
                omega
        intro n
        simp only [subTGo, hft]
        rw [List.drop_append_eq_append_drop]
        by_cases hn : n < p.2.length
        · have hne : p.2.drop n ≠ [] := by
            intro hc
            have := congrArg List.length hc
            rw [List.length_drop] at this
            simp at this
            omega
          rw [firstTok_none_iff]
          intro q hq
          cases hc : pfx q.1 (p.2.drop n ++
              List.drop (n - p.2.length) (subTGo table fuel (w.drop (p.1.length - 1)))) with
          | false => rfl
          | true =>
            exfalso
            have hmem : p.2.drop n ∈ p.2.tails := by
              rw [List.mem_tails]
              exact List.drop_suffix n p.2
            rcases pfx_append_elim (p.2.drop n) q.1 _ hc with h1 | ⟨h2, _⟩
            · have hd := (hsep.2.2 p hpmem (p.2.drop n) hmem hne q hq).1
              rw [h1] at hd
              exact absurd hd (by simp)
            · have hd := (hsep.2.2 p hpmem (p.2.drop n) hmem hne q hq).2
              rw [h2] at hd
              exact absurd hd (by simp)
        · rw [List.drop_eq_nil_of_le (by omega), List.nil_append]
          exact hrec (n - p.2.length)
      | none =>
        have hrec : NoTok table (subTGo table fuel w) := by
          apply ih
          have := hl
          simp only [List.length_cons] at this
          omega
        intro n
        simp only [subTGo, hft]
        cases n with
        | zero =>
          rw [List.drop_zero, firstTok_none_iff]
          intro q hq
          cases hqc : pfx q.1 (c :: subTGo table fuel w)
          · rfl
          · exfalso
            have hqs : subTGo table (fuel + 1) (c :: w) = c :: subTGo table fuel w := by
              simp only [subTGo, hft]
            have hq1 : q.1 ∈ q.1.tails := by
              rw [List.mem_tails]
            have hqe : q.1 ≠ [] := (hsep.1 q hq).1
            have htr := pfx_subTGo_transfer table hsep (fuel + 1) (c :: w) q.1
              ⟨q, hq, hq1⟩ hqe (by rw [hqs]; exact hqc)
            rw [firstTok_none_iff] at hft
            have := hft q hq
            rw [htr] at this
            exact absurd this (by simp)
        | succ n =>
          have h2 := hrec n
          simpa using h2

/-- The ARIB alternative-representation table satisfies the separation
conditions (finite check). -/
theorem format_table_sep : SepTable format_string_regex_table := by
  unfold SepTable
  decide

/-- The translation table is stable on its own values (finite check). -/
theorem format_translate_fix :
    ∀ p ∈ format_string_translation_map,
      trLookup format_string_translation_map p.2 = p.2 := by decide

/-- No translation value is a carriage return (finite check). -/
theorem format_translate_no_cr :
    ∀ p ∈ format_string_translation_map, p.2 ≠ '\r' := by decide

/-- No ARIB replacement contains a carriage return (finite check). -/
theorem format_repl_no_cr :
    ∀ p ∈ format_string_regex_table, '\r' ∉ p.2 := by decide

/-- Every ARIB replacement character is fixed by the translation (finite
check). -/
theorem format_repl_translate_fix :
    ∀ p ∈ format_string_regex_table, ∀ c ∈ p.2,
      trLookup format_string_translation_map c = c := by decide

/-- Characters of a scan result come from the input or from a replacement. -/
theorem mem_subTGo (table : List (List Char × List Char)) :
    ∀ (fuel : ℕ) (l : List Char) (x : Char),
      x ∈ subTGo table fuel l → x ∈ l ∨ ∃ p ∈ table, x ∈ p.2 := by
  intro fuel
  induction fuel with
  | zero => intro l x h; exact Or.inl h
  | succ fuel ih =>
    intro l x h
    cases l with
    | nil => simp [subTGo] at h
    | cons c w =>
      cases hft : firstTok table (c :: w) with
      | some p =>
        simp only [subTGo, hft] at h
        rcases List.mem_append.mp h with h1 | h1
        · exact Or.inr ⟨p, (firstTok_some hft).1, h1⟩
        · rcases ih _ _ h1 with h2 | h2
          · exact Or.inl (List.mem_cons_of_mem c (List.mem_of_mem_drop h2))
          · exact Or.inr h2
      | none =>
        simp only [subTGo, hft] at h
        rcases List.mem_cons.mp h with h2 | h1
        · exact Or.inl (by rw [h2]; exact List.mem_cons_self c w)
        · rcases ih _ _ h1 with h2 | h2
          · exact Or.inl (List.mem_cons_of_mem c h2)
          · exact Or.inr h2

/-- Translating twice is translating once, given value stability. -/
theorem trLookup_fix {table : List (Char × Char)}
    (h : ∀ p ∈ table, trLookup table p.2 = p.2) (c : Char) :
    trLookup table (trLookup table c) = trLookup table c := by
  cases hf : table.find? (fun p => p.1 == c) with
  | none =>
    have he : trLookup table c = c := by unfold trLookup; rw [hf]
    rw [he]
    exact he
  | some p =>
    have he : trLookup table c = p.2 := by unfold trLookup; rw [hf]
    rw [he]
    exact h p (List.mem_of_find?_eq_some hf)

/-- A translation producing a carriage return must start from one. -/
theorem trLookup_cr {c : Char}
    (h : trLookup format_string_translation_map c = '\r') : c = '\r' := by
  revert h
  unfold trLookup
  cases hf : format_string_translation_map.find? (fun p => p.1 == c) with
  | none => intro h; exact h
  | some p =>
    intro h
    exact absurd h (format_translate_no_cr p (List.mem_of_find?_eq_some hf))

/-- A match of a nonempty pattern forces the pattern head onto the list. -/
theorem pfx_target_cons {a : Char} {as w : List Char}
    (h : pfx (a :: as) w = true) : ∃ w', w = a :: w' := by
  cases w with
  | nil => exact absurd h (by simp [pfx])
  | cons b bs =>
    simp only [pfx, Bool.and_eq_true, beq_iff_eq] at h
    exact ⟨bs, by rw [h.1]⟩

/-- A list without carriage returns contains no CRLF match anywhere. -/
theorem noTok_crlf_of_no_cr (l : List Char) (h : '\r' ∉ l) : NoTok crlfTable l := by
  intro n
  rw [firstTok_none_iff]
  intro p hp
  have hp2 : p = (['\r', '\n'], ['\n']) := by
    simpa [crlfTable] using hp
  subst hp2
  cases hc : pfx ['\r', '\n'] (l.drop n) with
  | false => rfl
  | true =>
    exfalso
    obtain ⟨w', hw⟩ := pfx_target_cons hc
    have hm : '\r' ∈ l.drop n := by
      rw [hw]
      exact List.mem_cons_self _ _
    exact h (List.mem_of_mem_drop hm)

/-- The scan is the identity on lists without matches (whole-pass form). -/
theorem subT_of_noTok (table : List (List Char × List Char)) (l : List Char)
    (h : NoTok table l) : subT table l = l :=
  subTGo_of_noTok table l.length l h

/-- FormatString is idempotent on strings without a carriage return: the
translation is stable on its own output, the token scan leaves no token
occurrence behind, and the CRLF pass is the identity on CR-free text. -/
theorem FormatString_idem_of_no_cr (s : String) (hcr : '\r' ∉ s.data) :
    FormatString (FormatString s) = FormatString s := by
  have hcr1 : '\r' ∉ s.data.map (trLookup format_string_translation_map) := by
    intro hm
    rw [List.mem_map] at hm
    obtain ⟨c, hc, hcv⟩ := hm
    exact hcr (trLookup_cr hcv ▸ hc)
  have hcr2 : '\r' ∉ subT format_string_regex_table
      (s.data.map (trLookup format_string_translation_map)) := by
    intro hm
    rcases mem_subTGo _ _ _ _ hm with h1 | ⟨p, hp, hc⟩
    · exact hcr1 h1
    · exact format_repl_no_cr p hp hc
  have e1 : FormatString s = ⟨subT format_string_regex_table
      (s.data.map (trLookup format_string_translation_map))⟩ := by
    unfold FormatString
    congr 1
    exact subT_of_noTok crlfTable _ (noTok_crlf_of_no_cr _ hcr2)
  have hfix : ∀ x ∈ subT format_string_regex_table
      (s.data.map (trLookup format_string_translation_map)),
      trLookup format_string_translation_map x = x := by
    intro x hx
    rcases mem_subTGo _ _ _ _ hx with h1 | ⟨p, hp, hc⟩
    · rw [List.mem_map] at h1
      obtain ⟨c, _, rfl⟩ := h1
      exact trLookup_fix format_translate_fix c
    · exact format_repl_translate_fix p hp x hc
  have e3 : (subT format_string_regex_table
        (s.data.map (trLookup format_string_translation_map))).map
          (trLookup format_string_translation_map) =
      subT format_string_regex_table
        (s.data.map (trLookup format_string_translation_map)) :=
    calc (subT format_string_regex_table
          (s.data.map (trLookup format_string_translation_map))).map
            (trLookup format_string_translation_map)
        = (subT format_string_regex_table
            (s.data.map (trLookup format_string_translation_map))).map id :=
          List.map_congr_left fun a ha => hfix a ha
      _ = _ := List.map_id _
  have hnt : NoTok format_string_regex_table
      (subT format_string_regex_table
        (s.data.map (trLookup format_string_translation_map))) :=
    noTok_subTGo _ format_table_sep _ _ (le_refl _)
  rw [e1]
  have e2 : FormatString ⟨subT format_string_regex_table
      (s.data.map (trLookup format_string_translation_map))⟩ =
      ⟨subT crlfTable (subT format_string_regex_table
        ((subT format_string_regex_table
          (s.data.map (trLookup format_string_translation_map))).map
            (trLookup format_string_translation_map)))⟩ := rfl
  rw [e2, e3, subT_of_noTok _ _ hnt,
    subT_of_noTok crlfTable _ (noTok_crlf_of_no_cr _ hcr2)]

/-- C4 (amended): FormatString composed with itself agrees with one
application on every string containing no carriage return, and
RemoveSymbols is idempotent on its fixed points; neither function is
idempotent on all strings (see the counterexample). -/
theorem normalization_idempotence_amended :
    (∀ s : String, '\r' ∉ s.data → FormatString (FormatString s) = FormatString s) ∧
    (∀ s : String, RemoveSymbols s = s →
      RemoveSymbols (RemoveSymbols s) = RemoveSymbols s) := by
  refine ⟨FormatString_idem_of_no_cr, ?_⟩
  intro s h
  rw [h, h]

/-- Counterexample to C4 as stated: the CRLF pass of FormatString can
create a new CRLF pair, and the branding-prefix cascade of RemoveSymbols
can re-expose a nested branding prefix. -/
theorem normalization_not_idempotent :
    FormatString (FormatString "\r\r\n\n") ≠ FormatString "\r\r\n\n" ∧
    RemoveSymbols (RemoveSymbols "アニメ「アニメ「あ」」") ≠
      RemoveSymbols "アニメ「アニメ「あ」」" := by
  constructor
  · decide
  · have h1 : RemoveSymbols "アニメ「アニメ「あ」」" = "アニメ「あ 」" := by decide
    have h2 : RemoveSymbols "アニメ「あ 」" = "あ" := by decide
    rw [h1, h2]
    decide

/-- Witness: the amended statement at a CR-free string and at a fixed
point. -/
theorem normalization_idempotence_amended_witness :
    FormatString (FormatString "Ａ!") = FormatString "Ａ!" ∧
    RemoveSymbols (RemoveSymbols "") = RemoveSymbols "" :=
  ⟨normalization_idempotence_amended.1 "Ａ!" (by decide),
   normalization_idempotence_amended.2 "" (by decide)⟩
